import Mathlib

/-!
# OpenCppCoverage debug engine (`CppCoverage/Debugger.cpp`)

A shallow embedding of `CppCoverage::Debugger`: the handle registries
(`processHandles_`, `threadHandles_`), the per-event dispatch
(`HandleDebugEvent` and the `On...` members), the exception policy
(`OnException`), the wait loop of `Debug` and the main-thread selection of
the attach bootstrap.

Conventions of the embedding.

* `DWORD` and `HANDLE` values are natural numbers.  A C++ `int` (32 bits,
  two's complement) is represented by its bit pattern, a natural number
  below `2^32`; `static_cast_int` is the conversion `DWORD -> int`, which
  keeps the bit pattern, and `intValue` reads a pattern as a signed number.
* A member function that can throw returns `Except String _` paired with the
  engine state at the point where it returned or threw: a thrown C++ exception
  does not undo the assignments made before it.
* The calls of `IDebugEventsHandler` that return `void` (`OnCreateProcess`,
  `OnExitProcess`, `OnLoadDll`, `OnUnloadDll`) do not touch the engine's own
  state and are marked by a comment at the place of the call; the one call
  whose result the engine uses, `OnException`, is a field of the handler.
* What the operating system answers (`WaitForDebugEvent`,
  `GetExitCodeProcess`, `ContinueDebugEvent`) is given to the loop as a script,
  one `WaitResult` for each call of `WaitForDebugEvent`.
-/

namespace CppCoverage

/-! ## Machine values and Windows constants -/

abbrev DWORD := Nat
abbrev HANDLE := Nat

/-- Conversion of a `DWORD` to a C++ `int`, on bit patterns. -/
def static_cast_int (v : DWORD) : Nat := v % 2 ^ 32

/-- Signed value of the 32-bit pattern of an `int`. -/
def intValue (p : Nat) : Int :=
  if p % 2 ^ 32 < 2 ^ 31 then ((p % 2 ^ 32 : Nat) : Int) else ((p % 2 ^ 32 : Nat) : Int) - 2 ^ 32

/-- Windows SDK constant (`minwinbase.h`). -/
def EXCEPTION_DEBUG_EVENT : DWORD := 1
/-- Windows SDK constant (`minwinbase.h`). -/
def CREATE_THREAD_DEBUG_EVENT : DWORD := 2
/-- Windows SDK constant (`minwinbase.h`). -/
def CREATE_PROCESS_DEBUG_EVENT : DWORD := 3
/-- Windows SDK constant (`minwinbase.h`). -/
def EXIT_THREAD_DEBUG_EVENT : DWORD := 4
/-- Windows SDK constant (`minwinbase.h`). -/
def EXIT_PROCESS_DEBUG_EVENT : DWORD := 5
/-- Windows SDK constant (`minwinbase.h`). -/
def LOAD_DLL_DEBUG_EVENT : DWORD := 6
/-- Windows SDK constant (`minwinbase.h`). -/
def UNLOAD_DLL_DEBUG_EVENT : DWORD := 7
/-- Windows SDK constant (`minwinbase.h`). -/
def OUTPUT_DEBUG_STRING_EVENT : DWORD := 8
/-- Windows SDK constant (`minwinbase.h`). -/
def RIP_EVENT : DWORD := 9

/-- Windows SDK constant (`winnt.h`): resume the debuggee normally. -/
def DBG_CONTINUE : DWORD := 0x00010002
/-- Windows SDK constant (`winnt.h`): the exception is passed on unhandled. -/
def DBG_EXCEPTION_NOT_HANDLED : DWORD := 0x80010001
/-- Windows SDK constant (`winnt.h`, `STATUS_BREAKPOINT`). -/
def EXCEPTION_BREAKPOINT : DWORD := 0x80000003
/-- Windows SDK constant (`winbase.h`, `STATUS_PENDING`). -/
def STILL_ACTIVE : DWORD := 259
/-- Windows SDK constant (`winerror.h`). -/
def ERROR_SEM_TIMEOUT : DWORD := 121

/-! ## The handle registries: `std::unordered_map<DWORD, HANDLE>` -/

/-- Entries of a `std::unordered_map<DWORD, HANDLE>`. -/
abbrev HandleMap := List (DWORD × HANDLE)

namespace HandleMap

/-- Whether the key has an entry (`count(k) != 0`). -/
def contains (m : HandleMap) (k : DWORD) : Bool := m.any (fun e => e.1 == k)

/-- The call `emplace(k, v)`: the map afterwards and the `.second` of the result,
which is false, with the map unchanged, when the key has an entry. -/
def emplace (m : HandleMap) (k : DWORD) (v : HANDLE) : HandleMap × Bool :=
  if m.contains k then (m, false) else ((k, v) :: m, true)

/-- The call `erase(k)`: the map afterwards and the number of elements removed. -/
def erase (m : HandleMap) (k : DWORD) : HandleMap × Nat :=
  (m.filter (fun e => e.1 != k), if m.contains k then 1 else 0)

/-- The call `at(k)` (named `at_`, as `at` is reserved), which throws `std::out_of_range` when the key has no entry. -/
def at_ (m : HandleMap) (k : DWORD) : Except String HANDLE :=
  match m.find? (fun e => e.1 == k) with
  | some e => .ok e.2
  | none => .error "std::out_of_range"

/-- The keys of a map are pairwise different. -/
def WF (m : HandleMap) : Prop := (m.map Prod.fst).Nodup

end HandleMap

/-! ## Events, outcomes and the collaborator -/

/-- The members of `CREATE_PROCESS_DEBUG_INFO` the engine reads. -/
structure CREATE_PROCESS_DEBUG_INFO where
  hFile : HANDLE
  hProcess : HANDLE
  hThread : HANDLE
  deriving DecidableEq, Repr

/-- The member of `CREATE_THREAD_DEBUG_INFO` the engine reads. -/
structure CREATE_THREAD_DEBUG_INFO where
  hThread : HANDLE
  deriving DecidableEq, Repr

/-- The member of `EXIT_PROCESS_DEBUG_INFO` the engine reads. -/
structure EXIT_PROCESS_DEBUG_INFO where
  dwExitCode : DWORD
  deriving DecidableEq, Repr

/-- An `EXCEPTION_DEBUG_INFO`: the code of its exception record, the address
and the first-chance flag. -/
structure EXCEPTION_DEBUG_INFO where
  ExceptionCode : DWORD
  ExceptionAddress : Nat
  dwFirstChance : DWORD
  deriving DecidableEq, Repr

/-- A `DEBUG_EVENT`; each member of the union `u` that the engine reads is a
field of its own. -/
structure DEBUG_EVENT where
  dwDebugEventCode : DWORD
  dwProcessId : DWORD
  dwThreadId : DWORD
  CreateProcessInfo : CREATE_PROCESS_DEBUG_INFO
  CreateThread : CREATE_THREAD_DEBUG_INFO
  ExitProcess : EXIT_PROCESS_DEBUG_INFO
  Exception : EXCEPTION_DEBUG_INFO
  deriving DecidableEq, Repr

/-- The enumeration `IDebugEventsHandler::ExceptionType`; `outOfRange` stands
for a value of the underlying type that is none of the five enumerators. -/
inductive ExceptionType where
  | BreakPoint
  | InvalidBreakPoint
  | NotHandled
  | Error
  | CppError
  | outOfRange (raw : Nat)
  deriving DecidableEq, Repr

/-- Whether the value is one of the five enumerators. -/
def ExceptionType.isEnumerator : ExceptionType → Bool
  | .outOfRange _ => false
  | _ => true

/-- The collaborator `IDebugEventsHandler`, as far as the engine uses what it
returns: the classifier of exception events. -/
structure IDebugEventsHandler where
  OnException : HANDLE → HANDLE → EXCEPTION_DEBUG_INFO → ExceptionType

/-- The struct `Debugger::ProcessStatus`. -/
structure ProcessStatus where
  exitCode_ : Option Nat := none
  continueStatus_ : Option DWORD := none
  deriving DecidableEq, Repr

/-- The data members of `Debugger`. -/
structure Debugger where
  coverChildren_ : Bool
  continueAfterCppException_ : Bool
  stopOnAssert_ : Bool
  processHandles_ : HandleMap := []
  threadHandles_ : HandleMap := []
  rootProcessId_ : Option DWORD := none
  deriving DecidableEq, Repr

/-! ## The member functions of `Debugger` -/

/-- The member `Debugger::GetProcessHandle`. -/
def GetProcessHandle (d : Debugger) (dwProcessId : DWORD) : Except String HANDLE :=
  d.processHandles_.at_ dwProcessId

/-- The member `Debugger::GetThreadHandle`. -/
def GetThreadHandle (d : Debugger) (dwThreadId : DWORD) : Except String HANDLE :=
  d.threadHandles_.at_ dwThreadId

/-- The member `Debugger::GetRunningProcesses`. -/
def GetRunningProcesses (d : Debugger) : Nat := d.processHandles_.length

/-- The member `Debugger::GetRunningThreads`. -/
def GetRunningThreads (d : Debugger) : Nat := d.threadHandles_.length

/-- The member `Debugger::OnCreateThread`. -/
def OnCreateThread (d : Debugger) (hThread : HANDLE) (dwThreadId : DWORD) :
    Except String Unit × Debugger :=
  let r := d.threadHandles_.emplace dwThreadId hThread
  if !r.2 then (.error "Thread id already exist", { d with threadHandles_ := r.1 })
  else (.ok (), { d with threadHandles_ := r.1 })

/-- The member `Debugger::OnExitThread`. -/
def OnExitThread (d : Debugger) (dwThreadId : DWORD) : Except String Unit × Debugger :=
  let r := d.threadHandles_.erase dwThreadId
  if r.2 != 1 then (.error "Cannot find exited thread.", { d with threadHandles_ := r.1 })
  else (.ok (), { d with threadHandles_ := r.1 })

/-- The member `Debugger::OnCreateProcess`. -/
def OnCreateProcess (d : Debugger) (debugEvent : DEBUG_EVENT) : Except String Unit × Debugger :=
  let processInfo := debugEvent.CreateProcessInfo
  let d1 : Debugger :=
    if d.rootProcessId_.isNone && d.processHandles_.isEmpty then
      { d with rootProcessId_ := some debugEvent.dwProcessId }
    else d
  let r := d1.processHandles_.emplace debugEvent.dwProcessId processInfo.hProcess
  let d2 : Debugger := { d1 with processHandles_ := r.1 }
  if !r.2 then (.error "Process id already exist", d2)
  else
    -- debugEventsHandler.OnCreateProcess(processInfo);
    OnCreateThread d2 processInfo.hThread debugEvent.dwThreadId

/-- The member `Debugger::OnExitProcess`; the value returned is the `int` made
from `exitProcess.dwExitCode`. -/
def OnExitProcess (d : Debugger) (debugEvent : DEBUG_EVENT) (_hProcess _hThread : HANDLE) :
    Except String Nat × Debugger :=
  match OnExitThread d debugEvent.dwThreadId with
  | (.error e, d1) => (.error e, d1)
  | (.ok _, d1) =>
    let processId := debugEvent.dwProcessId
    let exitProcess := debugEvent.ExitProcess
    -- debugEventsHandler.OnExitProcess(hProcess, hThread, exitProcess);
    let r := d1.processHandles_.erase processId
    let d2 : Debugger := { d1 with processHandles_ := r.1 }
    if r.2 != 1 then (.error "Cannot find exited process.", d2)
    else (.ok (static_cast_int exitProcess.dwExitCode), d2)

/-- The member `Debugger::OnException` (a `const` member: the state is only read). -/
def OnException (d : Debugger) (debugEventsHandler : IDebugEventsHandler)
    (debugEvent : DEBUG_EVENT) (hProcess hThread : HANDLE) : Except String ProcessStatus :=
  let exception := debugEvent.Exception
  let exceptionType := debugEventsHandler.OnException hProcess hThread exception
  match exceptionType with
  | .BreakPoint => .ok { exitCode_ := none, continueStatus_ := some DBG_CONTINUE }
  | .InvalidBreakPoint =>
    if d.stopOnAssert_ then
      .ok { exitCode_ := none, continueStatus_ := some DBG_EXCEPTION_NOT_HANDLED }
    else
      .ok { exitCode_ := some (static_cast_int EXCEPTION_BREAKPOINT),
            continueStatus_ := some DBG_CONTINUE }
  | .NotHandled => .ok { exitCode_ := none, continueStatus_ := some DBG_EXCEPTION_NOT_HANDLED }
  | .Error => .ok { exitCode_ := none, continueStatus_ := some DBG_EXCEPTION_NOT_HANDLED }
  | .CppError =>
    if d.continueAfterCppException_ then
      .ok { exitCode_ := some (static_cast_int exception.ExceptionCode),
            continueStatus_ := some DBG_CONTINUE }
    else
      .ok { exitCode_ := none, continueStatus_ := some DBG_EXCEPTION_NOT_HANDLED }
  | .outOfRange _ => .error "Invalid exception Type."

/-- The member `Debugger::HandleNotCreationalEvent`. -/
def HandleNotCreationalEvent (d : Debugger) (debugEventsHandler : IDebugEventsHandler)
    (debugEvent : DEBUG_EVENT) (hProcess hThread : HANDLE) (dwThreadId : DWORD) :
    Except String ProcessStatus × Debugger :=
  if debugEvent.dwDebugEventCode = EXIT_PROCESS_DEBUG_EVENT then
    match OnExitProcess d debugEvent hProcess hThread with
    | (.error e, d1) => (.error e, d1)
    | (.ok exitCode, d1) => (.ok { exitCode_ := some exitCode, continueStatus_ := none }, d1)
  else if debugEvent.dwDebugEventCode = EXIT_THREAD_DEBUG_EVENT then
    match OnExitThread d dwThreadId with
    | (.error e, d1) => (.error e, d1)
    | (.ok _, d1) => (.ok {}, d1)
  else if debugEvent.dwDebugEventCode = LOAD_DLL_DEBUG_EVENT then
    -- debugEventsHandler.OnLoadDll(hProcess, hThread, loadDll); CloseHandle(loadDll.hFile)
    (.ok {}, d)
  else if debugEvent.dwDebugEventCode = UNLOAD_DLL_DEBUG_EVENT then
    -- debugEventsHandler.OnUnloadDll(hProcess, hThread, debugEvent.u.UnloadDll);
    (.ok {}, d)
  else if debugEvent.dwDebugEventCode = EXCEPTION_DEBUG_EVENT then
    (OnException d debugEventsHandler debugEvent hProcess hThread, d)
  else if debugEvent.dwDebugEventCode = RIP_EVENT then
    -- OnRip(debugEvent.u.RipInfo): a log line
    (.ok {}, d)
  else
    -- LOG_DEBUG
    (.ok {}, d)

/-- The member `Debugger::HandleDebugEvent`. -/
def HandleDebugEvent (d : Debugger) (debugEventsHandler : IDebugEventsHandler)
    (debugEvent : DEBUG_EVENT) : Except String ProcessStatus × Debugger :=
  let dwProcessId := debugEvent.dwProcessId
  let dwThreadId := debugEvent.dwThreadId
  if debugEvent.dwDebugEventCode = CREATE_PROCESS_DEBUG_EVENT then
    match OnCreateProcess d debugEvent with
    | (.error e, d1) => (.error e, d1)
    | (.ok _, d1) => (.ok {}, d1)
  else if debugEvent.dwDebugEventCode = CREATE_THREAD_DEBUG_EVENT then
    match OnCreateThread d debugEvent.CreateThread.hThread dwThreadId with
    | (.error e, d1) => (.error e, d1)
    | (.ok _, d1) => (.ok {}, d1)
  else
    match GetProcessHandle d dwProcessId with
    | .error e => (.error e, d)
    | .ok hProcess =>
      match GetThreadHandle d dwThreadId with
      | .error e => (.error e, d)
      | .ok hThread =>
        HandleNotCreationalEvent d debugEventsHandler debugEvent hProcess hThread dwThreadId

/-! ## The wait loop of `Debug` -/

/-- One answer of the operating system to `WaitForDebugEvent(&debugEvent, 1000)`:
an event, with whether the later `ContinueDebugEvent` succeeds, or a failure
with the value of `GetLastError()` and what `GetExitCodeProcess` then gives for
the root process handle (`none`: that call fails). -/
inductive WaitResult where
  | event (debugEvent : DEBUG_EVENT) (continueOk : Bool)
  | failed (lastError : DWORD) (exitCodeProcess : Option DWORD)
  deriving DecidableEq, Repr

/-- A wait that times out while `GetExitCodeProcess` gives `code`. -/
def WaitResult.timeout (code : DWORD) : WaitResult := .failed ERROR_SEM_TIMEOUT (some code)

/-- The state after one pass through the statements that follow a delivered
event in the loop of `Debug`, with the status given to `ContinueDebugEvent`. -/
structure Iteration where
  debugger : Debugger
  exitCode : Option Nat
  continueStatus : DWORD
  deriving DecidableEq, Repr

/-- How a run of `Debug` over a script ends: it returns (`stopped` tells that
the loop was left by the `break` of the liveness check), it throws, or the
script is used up while the loop is still waiting. -/
inductive DebugResult where
  | returned (exitCode : Nat) (debugger : Debugger) (stopped : Bool)
  | threw (what : String) (debugger : Debugger)
  | waiting (debugger : Debugger) (exitCode : Option Nat)
  deriving DecidableEq, Repr

/-- The statements of the loop of `Debug` from the call of `HandleDebugEvent`
to the computation of `continueStatus`. -/
def Debug_body (d : Debugger) (debugEventsHandler : IDebugEventsHandler)
    (exitCode : Option Nat) (debugEvent : DEBUG_EVENT) : Except (String × Debugger) Iteration :=
  match HandleDebugEvent d debugEventsHandler debugEvent with
  | (.error e, d1) => .error (e, d1)
  | (.ok processStatus, d1) =>
    let exitCode1 :=
      if processStatus.exitCode_.isSome && d1.rootProcessId_ == some debugEvent.dwProcessId
          && exitCode.isNone then
        processStatus.exitCode_
      else exitCode
    let continueStatus := processStatus.continueStatus_.getD DBG_CONTINUE
    .ok { debugger := d1, exitCode := exitCode1, continueStatus := continueStatus }

/-- The loop `while (!exitCode || !processHandles_.empty())` of `Debug`, entered
with its condition true, run on the answers of the operating system. -/
def Debug_loop (debugEventsHandler : IDebugEventsHandler) :
    Debugger → Option Nat → List WaitResult → DebugResult
  | d, exitCode, [] => .waiting d exitCode
  | d, exitCode, .failed err code :: rest =>
    if err ≠ ERROR_SEM_TIMEOUT then .threw "Error WaitForDebugEvent:" d
    else
      match code with
      | none => .threw "Error GetExitCodeProcess:" d
      | some code =>
        if code ≠ STILL_ACTIVE then
          -- exitCode = 108; stopped = true; break;
          .returned 108 d true
        else Debug_loop debugEventsHandler d exitCode rest
  | d, exitCode, .event debugEvent continueOk :: rest =>
    match Debug_body d debugEventsHandler exitCode debugEvent with
    | .error (e, d1) => .threw e d1
    | .ok it =>
      if !continueOk then .threw "Error in ContinueDebugEvent:" it.debugger
      else
        match it.exitCode with
        | none => Debug_loop debugEventsHandler it.debugger none rest
        | some c =>
          if !it.debugger.processHandles_.isEmpty then
            Debug_loop debugEventsHandler it.debugger (some c) rest
          else .returned c it.debugger false

/-- The member `Debugger::Debug` from the reset of the registries on: the
attach bootstrap before it dispatches nothing (its calls of `HandleDebugEvent`
are commented out) and only fixes the handle that `GetExitCodeProcess` queries. -/
def Debug (d : Debugger) (debugEventsHandler : IDebugEventsHandler)
    (script : List WaitResult) : DebugResult :=
  let d0 : Debugger :=
    { d with processHandles_ := [], threadHandles_ := [], rootProcessId_ := none }
  Debug_loop debugEventsHandler d0 none script

/-! ## The exception policy in the words of the specification -/

/-- How the debuggee is resumed. -/
inductive Continuation where
  | continueNormally
  | passThroughUnhandled
  deriving DecidableEq, Repr

/-- The continuation status that stands for a way to resume. -/
def Continuation.status : Continuation → DWORD
  | .continueNormally => DBG_CONTINUE
  | .passThroughUnhandled => DBG_EXCEPTION_NOT_HANDLED

/-- The policy table of the specification: the exit code and the way to resume
for a category, `none` for a value outside the five categories. -/
def policyTable (stopOnAssert continueAfterCppException : Bool) (rawExceptionCode : DWORD) :
    ExceptionType → Option (Option Nat × Continuation)
  | .BreakPoint => some (none, .continueNormally)
  | .InvalidBreakPoint =>
    if stopOnAssert then some (none, .passThroughUnhandled)
    else some (some EXCEPTION_BREAKPOINT, .continueNormally)
  | .NotHandled => some (none, .passThroughUnhandled)
  | .Error => some (none, .passThroughUnhandled)
  | .CppError =>
    if continueAfterCppException then some (some rawExceptionCode, .continueNormally)
    else some (none, .passThroughUnhandled)
  | .outOfRange _ => none

/-! ## Sequences of events -/

/-- Dispatch of a sequence of events through `HandleDebugEvent`, one after the
other; `none` when one of the calls throws. -/
def dispatchAll (debugEventsHandler : IDebugEventsHandler) :
    Debugger → List DEBUG_EVENT → Option Debugger
  | d, [] => some d
  | d, debugEvent :: rest =>
    match HandleDebugEvent d debugEventsHandler debugEvent with
    | (.ok _, d1) => dispatchAll debugEventsHandler d1 rest
    | (.error _, _) => none

/-- Number of events of a kind in a sequence. -/
def countEvents (code : DWORD) (events : List DEBUG_EVENT) : Nat :=
  events.countP (fun debugEvent => debugEvent.dwDebugEventCode == code)

/-- The process id of the first process-created event of a script. -/
def firstCreatedProcess : List WaitResult → Option DWORD
  | [] => none
  | .event debugEvent _ :: rest =>
    if debugEvent.dwDebugEventCode = CREATE_PROCESS_DEBUG_EVENT then some debugEvent.dwProcessId
    else firstCreatedProcess rest
  | .failed _ _ :: rest => firstCreatedProcess rest

/-- The exit code reported by the first process-exited event of a script for the
process id `r`. -/
def firstExitCode (r : DWORD) : List WaitResult → Option DWORD
  | [] => none
  | .event debugEvent _ :: rest =>
    if debugEvent.dwDebugEventCode = EXIT_PROCESS_DEBUG_EVENT ∧ debugEvent.dwProcessId = r then
      some debugEvent.ExitProcess.dwExitCode
    else firstExitCode r rest
  | .failed _ _ :: rest => firstExitCode r rest

/-! ## The attach bootstrap: choice of the main thread -/

/-- A `FILETIME`. -/
structure FILETIME where
  dwLowDateTime : DWORD
  dwHighDateTime : DWORD
  deriving DecidableEq, Repr

/-- The member `QuadPart` of the `ULARGE_INTEGER` filled from a `FILETIME`. -/
def QuadPart (creation : FILETIME) : Nat :=
  (creation.dwHighDateTime % 2 ^ 32) * 2 ^ 32 + creation.dwLowDateTime % 2 ^ 32

/-- The loop over `thrHandles` in the attach bootstrap of `Debug`, from index `i`
on, with the current `bestThreadIdx` and `bestTime`; an element is what
`GetThreadTimes` gives for the handle (`none`: the call fails). The result is
the final `(bestThreadIdx, bestTime)`. -/
def bestThreadLoop : List (Option FILETIME) → Int → Int → Nat → Except String (Int × Nat)
  | [], _, bestThreadIdx, bestTime => .ok (bestThreadIdx, bestTime)
  | none :: _, _, _, _ => .error "GetThreadTimes failed"
  | some creation :: rest, i, bestThreadIdx, bestTime =>
    let v := QuadPart creation
    if v < bestTime then bestThreadLoop rest (i + 1) i v
    else bestThreadLoop rest (i + 1) bestThreadIdx bestTime

/-- The value of `bestThreadIdx` after the loop, started with
`bestThreadIdx = -1` and `bestTime = ~0` (as `uint64_t`: `2^64 - 1`). -/
def bestThreadIdx (creationTimes : List (Option FILETIME)) : Except String Int :=
  match bestThreadLoop creationTimes 0 (-1) (2 ^ 64 - 1) with
  | .ok r => .ok r.1
  | .error e => .error e

/-- A `DEBUG_EVENT` with the given code and ids, the members of the union not
set. -/
def mkEvent (code pid tid : DWORD) : DEBUG_EVENT :=
  { dwDebugEventCode := code, dwProcessId := pid, dwThreadId := tid,
    CreateProcessInfo := ⟨0, 0, 0⟩, CreateThread := ⟨0⟩, ExitProcess := ⟨0⟩,
    Exception := ⟨0, 0, 0⟩ }

/-- The indices `i` for which the second loop of the bootstrap builds a
thread-created event: every index of `thrHandles` other than `bestThreadIdx`. -/
def synthesizedThreadIndices (n : Nat) (bestThreadIdx : Int) : List Nat :=
  (List.range n).filter (fun i => (i : Int) != bestThreadIdx)

/-- The thread-created events built by the second loop of the bootstrap, from
the ids and handles of the enumerated threads (none of them is dispatched). -/
def synthesizedThreadEvents (pid : DWORD) (thrIds : List DWORD) (thrHandles : List HANDLE)
    (bestThreadIdx : Int) : List DEBUG_EVENT :=
  (synthesizedThreadIndices thrHandles.length bestThreadIdx).map (fun i =>
    { mkEvent CREATE_THREAD_DEBUG_EVENT pid (thrIds.getD i 0) with
      CreateThread := ⟨thrHandles.getD i 0⟩ })

/-! ## The attach bootstrap as a whole -/

/-- Windows SDK constant (`handleapi.h`): `(HANDLE)-1`, in a 64-bit build. -/
def INVALID_HANDLE_VALUE : HANDLE := 2 ^ 64 - 1

/-- One thread that `ListProcessThreads` reports for the target, with what
`OpenThread` returns for its id and what `GetThreadTimes` gives for that handle
(`none`: the call fails). -/
structure EnumeratedThread where
  th32ThreadID : DWORD
  hThread : HANDLE
  creation : Option FILETIME
  deriving DecidableEq, Repr

/-- What the operating system answers during the attach bootstrap of `Debug`:
the attached process id, its threads, the results of `CreateFile` on the path
of the executable and of `OpenProcess`, the modules of `GetModules` (base
address and the result of `CreateFile` on the module path) and what
`GetModuleHandle(NULL)` returns. -/
structure AttachTarget where
  processId : DWORD
  threads : List EnumeratedThread
  hFile : HANDLE
  hProcess : HANDLE
  modules : List (HANDLE × HANDLE)
  ownModule : HANDLE
  deriving DecidableEq, Repr

/-- What the bootstrap has built when it completes: the handle that
`GetExitCodeProcess` will query and the three kinds of events it filled in. -/
structure Bootstrap where
  rootProcessHandle : HANDLE
  debugEvent : DEBUG_EVENT
  threadEvents : List DEBUG_EVENT
  dllEvents : List DEBUG_EVENT
  deriving DecidableEq, Repr

/-- The loop over `modules` of the bootstrap: a DLL-loaded event is built for
every module other than the own main image; a failing `CreateFile` throws. -/
def dllEventsLoop (pid tid ownModule : DWORD) : List (HANDLE × HANDLE) →
    Except String (List DEBUG_EVENT)
  | [] => .ok []
  | mod :: rest =>
    if mod.1 = ownModule then dllEventsLoop pid tid ownModule rest
    else if mod.2 = INVALID_HANDLE_VALUE then .error "CreateFile for dll failed"
    else
      -- HandleDebugEvent(dllEvent, debugEventsHandler) is commented out
      match dllEventsLoop pid tid ownModule rest with
      | .ok events => .ok (mkEvent LOAD_DLL_DEBUG_EVENT pid tid :: events)
      | .error e => .error e

/-- The block `if (auto pidPtr = process.GetAttachedProcessId())` of `Debug`.
It reads and writes no data member of the engine: each call of
`HandleDebugEvent` in it is commented out. An index `bestThreadIdx` outside
`thrIds` (undefined behaviour of `operator[]`) is given as a throw. -/
def attachBootstrap (t : AttachTarget) : Except String Bootstrap :=
  let thrIds := t.threads.map (fun th => th.th32ThreadID)
  if t.threads.any (fun th => th.hThread == INVALID_HANDLE_VALUE) then
    .error "OpenThread returned INVALID_HANDLE_VALUE"
  else
    let thrHandles := t.threads.map (fun th => th.hThread)
    match bestThreadIdx (t.threads.map (fun th => th.creation)) with
    | .error e => .error e
    | .ok best =>
      if best < 0 then .error "thrIds[bestThreadIdx]: index out of range"
      else
        match thrIds[best.toNat]?, thrHandles[best.toNat]? with
        | some mainId, some mainHandle =>
          if t.hFile = INVALID_HANDLE_VALUE then .error "CreateFile failed"
          else if t.hProcess = 0 then .error "OpenProcess failed"
          else
            let debugEvent : DEBUG_EVENT :=
              { mkEvent CREATE_PROCESS_DEBUG_EVENT t.processId mainId with
                CreateProcessInfo := ⟨t.hFile, t.hProcess, mainHandle⟩ }
            -- HandleDebugEvent(debugEvent, debugEventsHandler) is commented out
            -- HandleDebugEvent(de, debugEventsHandler) is commented out
            let threadEvents := synthesizedThreadEvents t.processId thrIds thrHandles best
            match dllEventsLoop t.processId mainId t.ownModule t.modules with
            | .error e => .error e
            | .ok dllEvents =>
              .ok { rootProcessHandle := t.hProcess, debugEvent := debugEvent,
                    threadEvents := threadEvents, dllEvents := dllEvents }
        | _, _ => .error "thrIds[bestThreadIdx]: index out of range"

/-- The member `Debugger::Debug` when `process.GetAttachedProcessId()` gives a
process id: the bootstrap, then the reset of the registries and the loop. -/
def Debug_attached (d : Debugger) (debugEventsHandler : IDebugEventsHandler)
    (t : AttachTarget) (script : List WaitResult) : DebugResult :=
  match attachBootstrap t with
  | .error e => .threw e d
  | .ok _ => Debug d debugEventsHandler script

/-- The engine state after the statements `processHandles_.clear();
threadHandles_.clear(); rootProcessId_ = boost::none;` of `Debug`. -/
def afterReset (d : Debugger) : Debugger :=
  { d with processHandles_ := [], threadHandles_ := [], rootProcessId_ := none }

/-- A target process 1 with two threads, thread 1 created before thread 2, and
one module besides its main image. -/
def sampleTarget : AttachTarget :=
  { processId := 1,
    threads := [⟨1, 201, some ⟨10, 0⟩⟩, ⟨2, 202, some ⟨20, 0⟩⟩],
    hFile := 7, hProcess := 101, modules := [(4096, 8), (8192, 9)], ownModule := 4096 }

/-! ## Sample inputs -/

/-- A session with the three policy flags off. -/
def sampleDebugger : Debugger :=
  { coverChildren_ := false, continueAfterCppException_ := false, stopOnAssert_ := false }

/-- A session that continues after a C++ exception. -/
def tolerantDebugger : Debugger :=
  { coverChildren_ := false, continueAfterCppException_ := true, stopOnAssert_ := false }

/-- A collaborator whose classifier answers with one fixed category. -/
def constHandler (t : ExceptionType) : IDebugEventsHandler := ⟨fun _ _ _ => t⟩

/-- An exception event of process 1, thread 1, with code `0xC0000005`. -/
def accessViolation : DEBUG_EVENT :=
  { mkEvent EXCEPTION_DEBUG_EVENT 1 1 with Exception := ⟨0xC0000005, 0, 1⟩ }

/-- The process-created event of process `pid` with initial thread `tid`. -/
def createProcess (pid tid : DWORD) : DEBUG_EVENT :=
  { mkEvent CREATE_PROCESS_DEBUG_EVENT pid tid with CreateProcessInfo := ⟨7, 100 + pid, 200 + tid⟩ }

/-- The process-exited event of process `pid` reported by thread `tid`. -/
def exitProcess (pid tid code : DWORD) : DEBUG_EVENT :=
  { mkEvent EXIT_PROCESS_DEBUG_EVENT pid tid with ExitProcess := ⟨code⟩ }

/-! ## Abbreviations used in the statements -/

/-- The root process id after the first statement of `OnCreateProcess`. -/
def rootAfterCreate (d : Debugger) (pid : DWORD) : Option DWORD :=
  if d.rootProcessId_.isNone && d.processHandles_.isEmpty then some pid else d.rootProcessId_

/-- Whether a call returned without throwing. -/
def returnedNormally {α : Type} (r : Except String α × Debugger) : Bool :=
  match r.1 with
  | .ok _ => true
  | .error _ => false

/-- The condition `!exitCode || !processHandles_.empty()` of the loop of `Debug`. -/
def loopCondition (d : Debugger) (exitCode : Option Nat) : Bool :=
  exitCode.isNone || !d.processHandles_.isEmpty

/-- An event code that neither `switch` of the dispatch names: it reaches the
`default` label of `HandleNotCreationalEvent`. -/
def unrecognized (code : DWORD) : Prop :=
  code ≠ CREATE_PROCESS_DEBUG_EVENT ∧ code ≠ CREATE_THREAD_DEBUG_EVENT ∧
  code ≠ EXIT_PROCESS_DEBUG_EVENT ∧ code ≠ EXIT_THREAD_DEBUG_EVENT ∧
  code ≠ LOAD_DLL_DEBUG_EVENT ∧ code ≠ UNLOAD_DLL_DEBUG_EVENT ∧
  code ≠ EXCEPTION_DEBUG_EVENT ∧ code ≠ RIP_EVENT

/-- An exception event of process 1, thread 1, with the breakpoint code. -/
def breakEvent : DEBUG_EVENT :=
  { mkEvent EXCEPTION_DEBUG_EVENT 1 1 with Exception := ⟨0x80000003, 0, 1⟩ }

/-- The session after the process-created event of process 1 with thread 1. -/
def oneProcess : Debugger :=
  { sampleDebugger with processHandles_ := [(1, 101)], threadHandles_ := [(1, 201)],
                        rootProcessId_ := some 1 }

/-! ## Theorems -/

/-! ### Machine values -/

theorem static_cast_int_lt (v : DWORD) : static_cast_int v < 2 ^ 32 :=
  Nat.mod_lt _ (by decide)

theorem static_cast_int_of_lt (v : DWORD) (hv : v < 2 ^ 32) : static_cast_int v = v :=
  Nat.mod_eq_of_lt hv

theorem intValue_access_violation : intValue (static_cast_int 0xC0000005) = -1073741819 := by
  decide

theorem intValue_exception_breakpoint :
    intValue (static_cast_int EXCEPTION_BREAKPOINT) = -2147483645 := by
  decide

/-! ### The registries -/

namespace HandleMap

theorem contains_nil (k : DWORD) : contains [] k = false := rfl

theorem contains_cons (e : DWORD × HANDLE) (m : HandleMap) (k : DWORD) :
    contains (e :: m) k = (e.1 == k || contains m k) := by
  simp [contains]

theorem contains_iff_mem_keys (m : HandleMap) (k : DWORD) :
    contains m k = true ↔ k ∈ m.map Prod.fst := by
  induction m with
  | nil => simp [contains]
  | cons e m ih =>
    rw [contains_cons, Bool.or_eq_true, ih, List.map_cons, List.mem_cons, beq_iff_eq]
    exact or_congr_left eq_comm

theorem filter_of_not_contains (m : HandleMap) (k : DWORD) (h : contains m k = false) :
    m.filter (fun e => e.1 != k) = m := by
  induction m with
  | nil => rfl
  | cons e m ih =>
    rw [contains_cons, Bool.or_eq_false_iff] at h
    have h1 : (e.1 != k) = true := by simpa [bne] using h.1
    simp only [List.filter_cons, h1, if_true, ih h.2]

theorem contains_filter (m : HandleMap) (k j : DWORD) :
    contains (m.filter (fun e => e.1 != k)) j = (contains m j && (j != k)) := by
  induction m with
  | nil => simp [contains]
  | cons e m ih =>
    by_cases hek : e.1 = k
    · have h0 : (e.1 != k) = false := by simp [hek]
      simp only [List.filter_cons, h0, Bool.false_eq_true, if_false]
      rw [ih, contains_cons]
      by_cases hj : j = k
      · simp [hj]
      · have : (e.1 == j) = false := by
          simp only [beq_eq_false_iff_ne, ne_eq]
          intro h; exact hj (h ▸ hek)
        simp [this]
    · have h1 : (e.1 != k) = true := by simp [hek]
      simp only [List.filter_cons, h1, if_true]
      rw [contains_cons, contains_cons, ih]
      by_cases hj : e.1 = j
      · have : (j != k) = true := by simpa [hj] using h1
        simp [hj, this]
      · have : (e.1 == j) = false := by simp [hj]
        simp [this]

theorem contains_erase_self (m : HandleMap) (k : DWORD) : contains (erase m k).1 k = false := by
  simp [erase, contains_filter]

theorem at_ok_of_contains (m : HandleMap) (k : DWORD) (h : contains m k = true) :
    ∃ v, at_ m k = .ok v := by
  induction m with
  | nil => simp [contains] at h
  | cons e m ih =>
    by_cases hek : e.1 = k
    · exact ⟨e.2, by simp [at_, List.find?, hek]⟩
    · rw [contains_cons] at h
      have h2 : contains m k = true := by simpa [hek] using h
      obtain ⟨v, hv⟩ := ih h2
      refine ⟨v, ?_⟩
      have hb : (e.1 == k) = false := by simp [hek]
      simpa [at_, List.find?, hb] using hv

theorem at_error_of_not_contains (m : HandleMap) (k : DWORD) (h : contains m k = false) :
    at_ m k = .error "std::out_of_range" := by
  induction m with
  | nil => rfl
  | cons e m ih =>
    rw [contains_cons, Bool.or_eq_false_iff] at h
    have := ih h.2
    simpa [at_, List.find?, h.1] using this

theorem WF_nil : WF [] := by simp [WF]

theorem WF_cons (m : HandleMap) (k : DWORD) (v : HANDLE) (hwf : WF m)
    (hk : contains m k = false) : WF ((k, v) :: m) := by
  have hnot : k ∉ m.map Prod.fst := by
    intro hmem
    rw [(contains_iff_mem_keys m k).mpr hmem] at hk
    exact Bool.noConfusion hk
  simpa [WF, List.nodup_cons] using And.intro (by simpa using hnot) hwf

theorem WF_filter (m : HandleMap) (k : DWORD) (hwf : WF m) :
    WF (m.filter (fun e => e.1 != k)) := by
  unfold WF at *
  exact (List.Nodup.sublist ((List.filter_sublist m).map Prod.fst) hwf)

theorem length_filter (m : HandleMap) (k : DWORD) (hwf : WF m) (hc : contains m k = true) :
    (m.filter (fun e => e.1 != k)).length + 1 = m.length := by
  induction m with
  | nil => simp [contains] at hc
  | cons e m ih =>
    have hwf2 : WF m := by
      unfold WF at *
      exact (List.nodup_cons.mp (by simpa using hwf)).2
    by_cases hek : e.1 = k
    · have hnot : contains m k = false := by
        by_contra hcon
        have hmem : k ∈ m.map Prod.fst :=
          (contains_iff_mem_keys m k).mp (by simpa using hcon)
        have hnd : e.1 ∉ m.map Prod.fst := by
          unfold WF at hwf
          exact (List.nodup_cons.mp (by simpa using hwf)).1
        exact hnd (hek ▸ hmem)
      have h0 : (e.1 != k) = false := by simp [hek]
      simp only [List.filter_cons, h0, Bool.false_eq_true, if_false]
      rw [filter_of_not_contains m k hnot]
      rfl
    · have h1 : (e.1 != k) = true := by simp [hek]
      rw [contains_cons] at hc
      have h2 : contains m k = true := by simpa [hek] using hc
      simp only [List.filter_cons, h1, if_true]
      rw [List.length_cons, List.length_cons, ih hwf2 h2]

end HandleMap

/-! ### The member functions, case by case -/

theorem OnCreateThread_eq (d : Debugger) (hThread : HANDLE) (tid : DWORD) :
    OnCreateThread d hThread tid =
      if d.threadHandles_.contains tid then (.error "Thread id already exist", d)
      else (.ok (), { d with threadHandles_ := (tid, hThread) :: d.threadHandles_ }) := by
  unfold OnCreateThread HandleMap.emplace
  by_cases h : d.threadHandles_.contains tid = true <;> simp [h]

theorem OnExitThread_eq (d : Debugger) (tid : DWORD) :
    OnExitThread d tid =
      if d.threadHandles_.contains tid then
        (.ok (), { d with threadHandles_ := d.threadHandles_.filter (fun e => e.1 != tid) })
      else (.error "Cannot find exited thread.", d) := by
  unfold OnExitThread HandleMap.erase
  by_cases h : d.threadHandles_.contains tid = true
  · simp [h]
  · have hf : d.threadHandles_.contains tid = false := by simpa using h
    simp [hf, HandleMap.filter_of_not_contains _ _ hf]

theorem isEmpty_of_contains (m : HandleMap) (k : DWORD) (h : m.contains k = true) :
    m.isEmpty = false := by
  cases m with
  | nil => simp [HandleMap.contains] at h
  | cons e m => rfl

theorem OnCreateProcess_eq (d : Debugger) (ev : DEBUG_EVENT) :
    OnCreateProcess d ev =
      if d.processHandles_.contains ev.dwProcessId then (.error "Process id already exist", d)
      else if d.threadHandles_.contains ev.dwThreadId then
        (.error "Thread id already exist",
          { d with rootProcessId_ := rootAfterCreate d ev.dwProcessId,
                   processHandles_ :=
                    (ev.dwProcessId, ev.CreateProcessInfo.hProcess) :: d.processHandles_ })
      else
        (.ok (),
          { d with rootProcessId_ := rootAfterCreate d ev.dwProcessId,
                   processHandles_ :=
                    (ev.dwProcessId, ev.CreateProcessInfo.hProcess) :: d.processHandles_,
                   threadHandles_ :=
                    (ev.dwThreadId, ev.CreateProcessInfo.hThread) :: d.threadHandles_ }) := by
  unfold OnCreateProcess HandleMap.emplace rootAfterCreate
  by_cases hp : d.processHandles_.contains ev.dwProcessId = true
  · have he := isEmpty_of_contains _ _ hp
    simp [hp, he]
  · have hpf : d.processHandles_.contains ev.dwProcessId = false := by simpa using hp
    by_cases hr : (d.rootProcessId_.isNone && d.processHandles_.isEmpty) = true
    · by_cases ht : d.threadHandles_.contains ev.dwThreadId = true <;>
        simp [hpf, hr, ht, OnCreateThread_eq]
    · by_cases ht : d.threadHandles_.contains ev.dwThreadId = true <;>
        simp [hpf, hr, ht, OnCreateThread_eq]

theorem OnExitProcess_eq (d : Debugger) (ev : DEBUG_EVENT) (hProcess hThread : HANDLE) :
    OnExitProcess d ev hProcess hThread =
      if d.threadHandles_.contains ev.dwThreadId then
        if d.processHandles_.contains ev.dwProcessId then
          (.ok (static_cast_int ev.ExitProcess.dwExitCode),
            { d with threadHandles_ := d.threadHandles_.filter (fun e => e.1 != ev.dwThreadId),
                     processHandles_ :=
                      d.processHandles_.filter (fun e => e.1 != ev.dwProcessId) })
        else
          (.error "Cannot find exited process.",
            { d with threadHandles_ := d.threadHandles_.filter (fun e => e.1 != ev.dwThreadId) })
      else (.error "Cannot find exited thread.", d) := by
  unfold OnExitProcess
  rw [OnExitThread_eq]
  by_cases ht : d.threadHandles_.contains ev.dwThreadId = true
  · by_cases hp : d.processHandles_.contains ev.dwProcessId = true
    · simp [ht, hp, HandleMap.erase]
    · have hpf : d.processHandles_.contains ev.dwProcessId = false := by simpa using hp
      simp [ht, hpf, HandleMap.erase, HandleMap.filter_of_not_contains _ _ hpf]
  · simp [ht]

theorem HandleDebugEvent_not_creational (d : Debugger) (h : IDebugEventsHandler)
    (ev : DEBUG_EVENT) (h1 : ev.dwDebugEventCode ≠ CREATE_PROCESS_DEBUG_EVENT)
    (h2 : ev.dwDebugEventCode ≠ CREATE_THREAD_DEBUG_EVENT)
    (hp : d.processHandles_.contains ev.dwProcessId = true)
    (ht : d.threadHandles_.contains ev.dwThreadId = true) :
    ∃ hProcess hThread,
      HandleDebugEvent d h ev = HandleNotCreationalEvent d h ev hProcess hThread ev.dwThreadId := by
  obtain ⟨hP, hhP⟩ := HandleMap.at_ok_of_contains _ _ hp
  obtain ⟨hT, hhT⟩ := HandleMap.at_ok_of_contains _ _ ht
  exact ⟨hP, hT, by simp [HandleDebugEvent, h1, h2, GetProcessHandle, GetThreadHandle, hhP, hhT]⟩

theorem HandleDebugEvent_unregistered (d : Debugger) (h : IDebugEventsHandler)
    (ev : DEBUG_EVENT) (h1 : ev.dwDebugEventCode ≠ CREATE_PROCESS_DEBUG_EVENT)
    (h2 : ev.dwDebugEventCode ≠ CREATE_THREAD_DEBUG_EVENT)
    (hreg : d.processHandles_.contains ev.dwProcessId = false ∨
      d.threadHandles_.contains ev.dwThreadId = false) :
    HandleDebugEvent d h ev = (.error "std::out_of_range", d) := by
  by_cases hp : d.processHandles_.contains ev.dwProcessId = true
  · obtain ⟨hP, hhP⟩ := HandleMap.at_ok_of_contains _ _ hp
    have ht : d.threadHandles_.contains ev.dwThreadId = false := by
      rcases hreg with hreg | hreg
      · rw [hp] at hreg; exact Bool.noConfusion hreg
      · exact hreg
    have hhT := HandleMap.at_error_of_not_contains _ _ ht
    simp [HandleDebugEvent, h1, h2, GetProcessHandle, GetThreadHandle, hhP, hhT]
  · have hpf : d.processHandles_.contains ev.dwProcessId = false := by simpa using hp
    have hhP := HandleMap.at_error_of_not_contains _ _ hpf
    simp [HandleDebugEvent, h1, h2, GetProcessHandle, hhP]

theorem OnException_ok (d : Debugger) (h : IDebugEventsHandler) (ev : DEBUG_EVENT)
    (hProcess hThread : HANDLE)
    (hcls : (h.OnException hProcess hThread ev.Exception).isEnumerator = true) :
    ∃ ps, OnException d h ev hProcess hThread = .ok ps := by
  simp only [OnException]
  generalize h.OnException hProcess hThread ev.Exception = t at hcls
  cases t
  case InvalidBreakPoint => cases d.stopOnAssert_ <;> simp
  case CppError => cases d.continueAfterCppException_ <;> simp
  case outOfRange n => simp [ExceptionType.isEnumerator] at hcls
  all_goals simp

theorem HandleNotCreationalEvent_ok (d : Debugger) (h : IDebugEventsHandler) (ev : DEBUG_EVENT)
    (hProcess hThread : HANDLE)
    (hcls : ∀ hp ht e, (h.OnException hp ht e).isEnumerator = true)
    (hp : d.processHandles_.contains ev.dwProcessId = true)
    (ht : d.threadHandles_.contains ev.dwThreadId = true) :
    returnedNormally (HandleNotCreationalEvent d h ev hProcess hThread ev.dwThreadId) = true := by
  unfold HandleNotCreationalEvent
  by_cases c1 : ev.dwDebugEventCode = EXIT_PROCESS_DEBUG_EVENT
  · simp +decide [c1, OnExitProcess_eq, hp, ht, returnedNormally]
  by_cases c2 : ev.dwDebugEventCode = EXIT_THREAD_DEBUG_EVENT
  · simp +decide [c1, c2, OnExitThread_eq, ht, returnedNormally]
  by_cases c3 : ev.dwDebugEventCode = LOAD_DLL_DEBUG_EVENT
  · simp +decide [c1, c2, c3, returnedNormally]
  by_cases c4 : ev.dwDebugEventCode = UNLOAD_DLL_DEBUG_EVENT
  · simp +decide [c1, c2, c3, c4, returnedNormally]
  by_cases c5 : ev.dwDebugEventCode = EXCEPTION_DEBUG_EVENT
  · obtain ⟨ps, hps⟩ := OnException_ok d h ev hProcess hThread (hcls _ _ _)
    simp +decide [c1, c2, c3, c4, c5, hps, returnedNormally]
  by_cases c6 : ev.dwDebugEventCode = RIP_EVENT
  · simp +decide [c1, c2, c3, c4, c5, c6, returnedNormally]
  · simp +decide [c1, c2, c3, c4, c5, c6, returnedNormally]

/-! ### What a dispatch that returns has done -/

theorem HandleDebugEvent_ok_cases (d d1 : Debugger) (h : IDebugEventsHandler)
    (ev : DEBUG_EVENT) (ps : ProcessStatus) (hok : HandleDebugEvent d h ev = (.ok ps, d1)) :
    (ev.dwDebugEventCode = CREATE_PROCESS_DEBUG_EVENT ∧ ps = {} ∧
      d.processHandles_.contains ev.dwProcessId = false ∧
      d.threadHandles_.contains ev.dwThreadId = false ∧
      d1 = { d with rootProcessId_ := rootAfterCreate d ev.dwProcessId,
                    processHandles_ :=
                      (ev.dwProcessId, ev.CreateProcessInfo.hProcess) :: d.processHandles_,
                    threadHandles_ :=
                      (ev.dwThreadId, ev.CreateProcessInfo.hThread) :: d.threadHandles_ }) ∨
    (ev.dwDebugEventCode = CREATE_THREAD_DEBUG_EVENT ∧ ps = {} ∧
      d.threadHandles_.contains ev.dwThreadId = false ∧
      d1 = { d with threadHandles_ :=
                      (ev.dwThreadId, ev.CreateThread.hThread) :: d.threadHandles_ }) ∨
    (ev.dwDebugEventCode ≠ CREATE_PROCESS_DEBUG_EVENT ∧
      ev.dwDebugEventCode ≠ CREATE_THREAD_DEBUG_EVENT ∧
      d.processHandles_.contains ev.dwProcessId = true ∧
      d.threadHandles_.contains ev.dwThreadId = true ∧
      ((ev.dwDebugEventCode = EXIT_PROCESS_DEBUG_EVENT ∧
          ps = { exitCode_ := some (static_cast_int ev.ExitProcess.dwExitCode),
                 continueStatus_ := none } ∧
          d1 = { d with
            threadHandles_ := d.threadHandles_.filter (fun e => e.1 != ev.dwThreadId),
            processHandles_ := d.processHandles_.filter (fun e => e.1 != ev.dwProcessId) }) ∨
        (ev.dwDebugEventCode = EXIT_THREAD_DEBUG_EVENT ∧ ps = {} ∧
          d1 = { d with
            threadHandles_ := d.threadHandles_.filter (fun e => e.1 != ev.dwThreadId) }) ∨
        (ev.dwDebugEventCode = EXCEPTION_DEBUG_EVENT ∧ d1 = d ∧
          ∃ hProcess hThread, OnException d h ev hProcess hThread = .ok ps) ∨
        (ev.dwDebugEventCode ≠ EXIT_PROCESS_DEBUG_EVENT ∧
          ev.dwDebugEventCode ≠ EXIT_THREAD_DEBUG_EVENT ∧
          ev.dwDebugEventCode ≠ EXCEPTION_DEBUG_EVENT ∧ ps = {} ∧ d1 = d))) := by
  by_cases c1 : ev.dwDebugEventCode = CREATE_PROCESS_DEBUG_EVENT
  · left
    by_cases hp : d.processHandles_.contains ev.dwProcessId = true
    · simp [HandleDebugEvent, c1, OnCreateProcess_eq, hp] at hok
    · by_cases ht : d.threadHandles_.contains ev.dwThreadId = true
      · simp [HandleDebugEvent, c1, OnCreateProcess_eq, hp, ht] at hok
      · simp only [HandleDebugEvent, c1, OnCreateProcess_eq, hp, ht, if_true, if_false,
          Bool.false_eq_true, Prod.mk.injEq, Except.ok.injEq] at hok
        exact ⟨c1, hok.1.symm, by simpa using hp, by simpa using ht, hok.2.symm⟩
  right
  by_cases c2 : ev.dwDebugEventCode = CREATE_THREAD_DEBUG_EVENT
  · left
    by_cases ht : d.threadHandles_.contains ev.dwThreadId = true
    · simp +decide [HandleDebugEvent, c2, OnCreateThread_eq, ht] at hok
    · simp +decide only [HandleDebugEvent, c2, OnCreateThread_eq, ht, if_true, if_false,
        Bool.false_eq_true, Prod.mk.injEq, Except.ok.injEq] at hok
      exact ⟨c2, hok.1.symm, by simpa using ht, hok.2.symm⟩
  right
  by_cases hreg : d.processHandles_.contains ev.dwProcessId = true ∧
      d.threadHandles_.contains ev.dwThreadId = true
  · obtain ⟨hp, ht⟩ := hreg
    refine ⟨c1, c2, hp, ht, ?_⟩
    obtain ⟨hP, hT, heq⟩ := HandleDebugEvent_not_creational d h ev c1 c2 hp ht
    rw [heq] at hok
    unfold HandleNotCreationalEvent at hok
    by_cases c3 : ev.dwDebugEventCode = EXIT_PROCESS_DEBUG_EVENT
    · left
      simp only [if_pos c3, OnExitProcess_eq, hp, ht, if_true, Prod.mk.injEq,
        Except.ok.injEq] at hok
      exact ⟨c3, hok.1.symm, hok.2.symm⟩
    right
    rw [if_neg c3] at hok
    by_cases c4 : ev.dwDebugEventCode = EXIT_THREAD_DEBUG_EVENT
    · left
      simp only [if_pos c4, OnExitThread_eq, ht, if_true, Prod.mk.injEq,
        Except.ok.injEq] at hok
      exact ⟨c4, hok.1.symm, hok.2.symm⟩
    right
    rw [if_neg c4] at hok
    by_cases c5 : ev.dwDebugEventCode = EXCEPTION_DEBUG_EVENT
    · left
      have c6 : ev.dwDebugEventCode ≠ LOAD_DLL_DEBUG_EVENT := by rw [c5]; decide
      have c7 : ev.dwDebugEventCode ≠ UNLOAD_DLL_DEBUG_EVENT := by rw [c5]; decide
      rw [if_neg c6, if_neg c7, if_pos c5] at hok
      simp only [Prod.mk.injEq] at hok
      exact ⟨c5, hok.2.symm, hP, hT, hok.1⟩
    right
    refine ⟨c3, c4, c5, ?_⟩
    rw [if_neg c5] at hok
    split_ifs at hok <;>
      (simp only [Prod.mk.injEq, Except.ok.injEq] at hok; exact ⟨hok.1.symm, hok.2.symm⟩)
  · have hreg2 : d.processHandles_.contains ev.dwProcessId = false ∨
        d.threadHandles_.contains ev.dwThreadId = false := by
      by_cases hp : d.processHandles_.contains ev.dwProcessId = true
      · right
        by_cases ht : d.threadHandles_.contains ev.dwThreadId = true
        · exact absurd ⟨hp, ht⟩ hreg
        · simpa using ht
      · left; simpa using hp
    rw [HandleDebugEvent_unregistered d h ev c1 c2 hreg2] at hok
    simp at hok

/-! ### Sizes of the registries -/

theorem countEvents_cons (code : DWORD) (ev : DEBUG_EVENT) (rest : List DEBUG_EVENT) :
    countEvents code (ev :: rest) =
      countEvents code rest + (if ev.dwDebugEventCode = code then 1 else 0) := by
  simp [countEvents, List.countP_cons]

theorem HandleDebugEvent_sizes (d d1 : Debugger) (h : IDebugEventsHandler) (ev : DEBUG_EVENT)
    (ps : ProcessStatus) (hok : HandleDebugEvent d h ev = (.ok ps, d1))
    (hwp : d.processHandles_.WF) (hwt : d.threadHandles_.WF) :
    d1.processHandles_.WF ∧ d1.threadHandles_.WF ∧
    d1.processHandles_.length +
        (if ev.dwDebugEventCode = EXIT_PROCESS_DEBUG_EVENT then 1 else 0) =
      d.processHandles_.length +
        (if ev.dwDebugEventCode = CREATE_PROCESS_DEBUG_EVENT then 1 else 0) ∧
    d1.threadHandles_.length +
        ((if ev.dwDebugEventCode = EXIT_THREAD_DEBUG_EVENT then 1 else 0) +
          (if ev.dwDebugEventCode = EXIT_PROCESS_DEBUG_EVENT then 1 else 0)) =
      d.threadHandles_.length +
        ((if ev.dwDebugEventCode = CREATE_THREAD_DEBUG_EVENT then 1 else 0) +
          (if ev.dwDebugEventCode = CREATE_PROCESS_DEBUG_EVENT then 1 else 0)) := by
  rcases HandleDebugEvent_ok_cases d d1 h ev ps hok with
    ⟨c, -, hp, ht, rfl⟩ | ⟨c, -, ht, rfl⟩ | ⟨c1, c2, hp, ht, hrest⟩
  · refine ⟨HandleMap.WF_cons _ _ _ hwp hp, HandleMap.WF_cons _ _ _ hwt ht, ?_, ?_⟩ <;>
      simp +decide [c]
  · refine ⟨hwp, HandleMap.WF_cons _ _ _ hwt ht, ?_, ?_⟩ <;> simp +decide [c]
  · rcases hrest with ⟨c, -, rfl⟩ | ⟨c, -, rfl⟩ | ⟨c, rfl, -⟩ | ⟨c3, c4, c5, -, rfl⟩
    · have hlp := HandleMap.length_filter _ _ hwp hp
      have hlt := HandleMap.length_filter _ _ hwt ht
      refine ⟨HandleMap.WF_filter _ _ hwp, HandleMap.WF_filter _ _ hwt, ?_, ?_⟩
      · simp +decide [c]; omega
      · simp +decide [c]; omega
    · have hlt := HandleMap.length_filter _ _ hwt ht
      refine ⟨hwp, HandleMap.WF_filter _ _ hwt, ?_, ?_⟩
      · simp +decide [c]
      · simp +decide [c]; omega
    · refine ⟨hwp, hwt, ?_, ?_⟩ <;> simp +decide [c]
    · refine ⟨hwp, hwt, ?_, ?_⟩ <;> simp [c1, c2, c3, c4]

theorem dispatchAll_sizes (h : IDebugEventsHandler) :
    ∀ (events : List DEBUG_EVENT) (d fin : Debugger), dispatchAll h d events = some fin →
      d.processHandles_.WF → d.threadHandles_.WF →
      fin.processHandles_.length + countEvents EXIT_PROCESS_DEBUG_EVENT events =
        d.processHandles_.length + countEvents CREATE_PROCESS_DEBUG_EVENT events ∧
      fin.threadHandles_.length +
          (countEvents EXIT_THREAD_DEBUG_EVENT events +
            countEvents EXIT_PROCESS_DEBUG_EVENT events) =
        d.threadHandles_.length +
          (countEvents CREATE_THREAD_DEBUG_EVENT events +
            countEvents CREATE_PROCESS_DEBUG_EVENT events) := by
  intro events
  induction events with
  | nil =>
    intro d fin hrun _ _
    simp only [dispatchAll, Option.some.injEq] at hrun
    subst hrun
    simp [countEvents]
  | cons ev rest ih =>
    intro d fin hrun hwp hwt
    simp only [dispatchAll] at hrun
    cases hstep : HandleDebugEvent d h ev with
    | mk r d1 =>
      rw [hstep] at hrun
      cases r with
      | error e => simp at hrun
      | ok ps =>
        simp only at hrun
        obtain ⟨hwp1, hwt1, hs1, hs2⟩ := HandleDebugEvent_sizes d d1 h ev ps hstep hwp hwt
        obtain ⟨ih1, ih2⟩ := ih d1 fin hrun hwp1 hwt1
        simp only [countEvents_cons]
        constructor <;> omega

/-! ### The loop -/

theorem Debug_loop_timeout_active (h : IDebugEventsHandler) (d : Debugger)
    (exitCode : Option Nat) (rest : List WaitResult) :
    Debug_loop h d exitCode (.timeout STILL_ACTIVE :: rest) = Debug_loop h d exitCode rest := by
  simp [WaitResult.timeout, Debug_loop]

theorem Debug_loop_timeout_inactive (h : IDebugEventsHandler) (d : Debugger)
    (exitCode : Option Nat) (code : DWORD) (hcode : code ≠ STILL_ACTIVE)
    (rest : List WaitResult) :
    Debug_loop h d exitCode (.timeout code :: rest) = .returned 108 d true := by
  simp [WaitResult.timeout, Debug_loop, hcode]

theorem Debug_loop_append (h : IDebugEventsHandler) (more : List WaitResult) :
    ∀ (pre : List WaitResult) (d : Debugger) (ec : Option Nat) (d1 : Debugger)
      (ec1 : Option Nat), Debug_loop h d ec pre = .waiting d1 ec1 →
      Debug_loop h d ec (pre ++ more) = Debug_loop h d1 ec1 more := by
  intro pre
  induction pre with
  | nil =>
    intro d ec d1 ec1 hw
    simp only [Debug_loop, DebugResult.waiting.injEq] at hw
    rw [List.nil_append, hw.1, hw.2]
  | cons w pre ih =>
    intro d ec d1 ec1 hw
    cases w with
    | failed err code =>
      simp only [List.cons_append, Debug_loop] at hw ⊢
      split at hw
      · exact False.elim (by cases hw)
      · rename_i herr
        rw [if_neg herr]
        cases code with
        | none => exact False.elim (by cases hw)
        | some c =>
          simp only at hw ⊢
          split at hw
          · exact False.elim (by cases hw)
          · rename_i hc
            rw [if_neg hc]
            exact ih _ _ _ _ hw
    | event ev ok =>
      simp only [List.cons_append, Debug_loop] at hw ⊢
      cases hb : Debug_body d h ec ev with
      | error e => rw [hb] at hw; exact False.elim (by cases hw)
      | ok it =>
        rw [hb] at hw
        simp only at hw ⊢
        cases ok with
        | false => exact False.elim (by simp at hw)
        | true =>
          simp only [Bool.not_true, Bool.false_eq_true, if_false] at hw ⊢
          cases hec : it.exitCode with
          | none => rw [hec] at hw; exact ih _ _ _ _ hw
          | some c =>
            rw [hec] at hw
            simp only at hw ⊢
            split at hw
            · rename_i hne
              rw [if_pos hne]
              exact ih _ _ _ _ hw
            · exact False.elim (by cases hw)

theorem Debug_loop_stops (h : IDebugEventsHandler) :
    ∀ (script : List WaitResult) (d : Debugger) (ec : Option Nat),
      loopCondition d ec = true →
      match Debug_loop h d ec script with
      | .returned c fin stopped =>
        (stopped = false → fin.processHandles_ = []) ∧ (stopped = true → c = 108)
      | .waiting fin ec1 => loopCondition fin ec1 = true
      | .threw _ _ => True := by
  intro script
  induction script with
  | nil => intro d ec hc; simpa [Debug_loop] using hc
  | cons w script ih =>
    intro d ec hc
    cases w with
    | failed err code =>
      simp only [Debug_loop]
      split_ifs with herr
      · trivial
      · cases code with
        | none => trivial
        | some c =>
          simp only
          split_ifs with hcode
          · simp
          · exact ih d ec hc
    | event ev ok =>
      simp only [Debug_loop]
      cases hb : Debug_body d h ec ev with
      | error e => trivial
      | ok it =>
        simp only
        cases ok with
        | false => simp
        | true =>
          simp only [Bool.not_true, Bool.false_eq_true, if_false]
          cases hec : it.exitCode with
          | none => exact ih it.debugger none (by simp [loopCondition])
          | some c =>
            simp only
            split_ifs with hne
            · exact ih it.debugger (some c) (by simp [loopCondition, hne])
            · have hempty : it.debugger.processHandles_.isEmpty = true := by simpa using hne
              simp [List.isEmpty_iff.mp hempty]

/-! ### The root process and the recorded exit code -/

theorem OnException_flags (d d0 : Debugger) (h : IDebugEventsHandler) (ev : DEBUG_EVENT)
    (hProcess hThread : HANDLE) (h1 : d.stopOnAssert_ = d0.stopOnAssert_)
    (h2 : d.continueAfterCppException_ = d0.continueAfterCppException_) :
    OnException d h ev hProcess hThread = OnException d0 h ev hProcess hThread := by
  simp only [OnException, h1, h2]

theorem HandleDebugEvent_ok_flags (d d1 : Debugger) (h : IDebugEventsHandler)
    (ev : DEBUG_EVENT) (ps : ProcessStatus) (hok : HandleDebugEvent d h ev = (.ok ps, d1)) :
    d1.stopOnAssert_ = d.stopOnAssert_ ∧
      d1.continueAfterCppException_ = d.continueAfterCppException_ := by
  rcases HandleDebugEvent_ok_cases d d1 h ev ps hok with
    ⟨-, -, -, -, rfl⟩ | ⟨-, -, -, rfl⟩ | ⟨-, -, -, -, hrest⟩
  · exact ⟨rfl, rfl⟩
  · exact ⟨rfl, rfl⟩
  · rcases hrest with ⟨-, -, rfl⟩ | ⟨-, -, rfl⟩ | ⟨-, rfl, -⟩ | ⟨-, -, -, -, rfl⟩ <;>
      exact ⟨rfl, rfl⟩

theorem HandleDebugEvent_ok_root (d d1 : Debugger) (h : IDebugEventsHandler)
    (ev : DEBUG_EVENT) (ps : ProcessStatus) (r : DWORD)
    (hok : HandleDebugEvent d h ev = (.ok ps, d1)) (hroot : d.rootProcessId_ = some r) :
    d1.rootProcessId_ = some r := by
  rcases HandleDebugEvent_ok_cases d d1 h ev ps hok with
    ⟨-, -, -, -, rfl⟩ | ⟨-, -, -, rfl⟩ | ⟨-, -, -, -, hrest⟩
  · simp [rootAfterCreate, hroot]
  · exact hroot
  · rcases hrest with ⟨-, -, rfl⟩ | ⟨-, -, rfl⟩ | ⟨-, rfl, -⟩ | ⟨-, -, -, -, rfl⟩ <;>
      exact hroot

theorem Debug_body_ok (d : Debugger) (h : IDebugEventsHandler) (ec : Option Nat)
    (ev : DEBUG_EVENT) (it : Iteration) (hb : Debug_body d h ec ev = .ok it) :
    ∃ ps, HandleDebugEvent d h ev = (.ok ps, it.debugger) ∧
      it.exitCode =
        (if ps.exitCode_.isSome && it.debugger.rootProcessId_ == some ev.dwProcessId
            && ec.isNone then ps.exitCode_ else ec) ∧
      it.continueStatus = ps.continueStatus_.getD DBG_CONTINUE := by
  unfold Debug_body at hb
  cases hstep : HandleDebugEvent d h ev with
  | mk r d1 =>
    rw [hstep] at hb
    cases r with
    | error e => simp at hb
    | ok ps =>
      simp only [Except.ok.injEq] at hb
      subst hb
      exact ⟨ps, rfl, rfl, rfl⟩

theorem Debug_body_keeps_exit_code (d : Debugger) (h : IDebugEventsHandler) (x : Nat)
    (ev : DEBUG_EVENT) (it : Iteration) (hb : Debug_body d h (some x) ev = .ok it) :
    it.exitCode = some x := by
  obtain ⟨ps, -, hec, -⟩ := Debug_body_ok d h (some x) ev it hb
  simpa using hec

theorem Debug_body_other_process (d : Debugger) (h : IDebugEventsHandler) (ec : Option Nat)
    (ev : DEBUG_EVENT) (it : Iteration) (hb : Debug_body d h ec ev = .ok it)
    (hother : it.debugger.rootProcessId_ ≠ some ev.dwProcessId) : it.exitCode = ec := by
  obtain ⟨ps, -, hec, -⟩ := Debug_body_ok d h ec ev it hb
  have : (it.debugger.rootProcessId_ == some ev.dwProcessId) = false := by
    simpa using hother
  simpa [this] using hec

theorem Debug_loop_cons_inv (h : IDebugEventsHandler) (d : Debugger) (ec : Option Nat)
    (w : WaitResult) (rest : List WaitResult) (R : DebugResult)
    (hrun : Debug_loop h d ec (w :: rest) = R) (hthrew : ∀ e d1, R ≠ .threw e d1)
    (hstop : ∀ c d1, R ≠ .returned c d1 true) :
    (∃ err code, w = .failed err code ∧ Debug_loop h d ec rest = R) ∨
    (∃ ev ok it, w = .event ev ok ∧ Debug_body d h ec ev = .ok it ∧
      ((∃ c, it.exitCode = some c ∧ it.debugger.processHandles_.isEmpty = true ∧
          R = .returned c it.debugger false) ∨
        Debug_loop h it.debugger it.exitCode rest = R)) := by
  cases w with
  | failed err code =>
    left
    refine ⟨err, code, rfl, ?_⟩
    simp only [Debug_loop] at hrun
    split_ifs at hrun with herr
    · exact absurd hrun.symm (hthrew _ _)
    · cases code with
      | none => exact absurd hrun.symm (hthrew _ _)
      | some c =>
        simp only at hrun
        split_ifs at hrun with hc
        · exact absurd hrun.symm (hstop _ _)
        · exact hrun
  | event ev ok =>
    right
    simp only [Debug_loop] at hrun
    cases hb : Debug_body d h ec ev with
    | error e =>
      rw [hb] at hrun
      exact absurd hrun.symm (hthrew _ _)
    | ok it =>
      rw [hb] at hrun
      refine ⟨ev, ok, it, rfl, hb, ?_⟩
      simp only at hrun
      cases ok with
      | false => exact absurd (by simpa using hrun.symm) (hthrew _ it.debugger)
      | true =>
        simp only [Bool.not_true, Bool.false_eq_true, if_false] at hrun
        cases hec : it.exitCode with
        | none =>
          rw [hec] at hrun
          exact Or.inr hrun
        | some c =>
          rw [hec] at hrun
          simp only at hrun
          split_ifs at hrun with hne
          · exact Or.inr hrun
          · exact Or.inl ⟨c, rfl, by simpa using hne, hrun.symm⟩

theorem Debug_body_first_record (d d0 : Debugger) (h : IDebugEventsHandler) (r : DWORD)
    (ev : DEBUG_EVENT) (it : Iteration) (hroot : d.rootProcessId_ = some r)
    (hf1 : d.stopOnAssert_ = d0.stopOnAssert_)
    (hf2 : d.continueAfterCppException_ = d0.continueAfterCppException_)
    (hexc : ev.dwDebugEventCode = EXCEPTION_DEBUG_EVENT → ev.dwProcessId = r →
      ∀ hProcess hThread ps, OnException d0 h ev hProcess hThread = .ok ps →
        ps.exitCode_ = none)
    (hb : Debug_body d h none ev = .ok it) :
    it.debugger.rootProcessId_ = some r ∧
    it.debugger.stopOnAssert_ = d0.stopOnAssert_ ∧
    it.debugger.continueAfterCppException_ = d0.continueAfterCppException_ ∧
    ((ev.dwDebugEventCode = EXIT_PROCESS_DEBUG_EVENT ∧ ev.dwProcessId = r ∧
        it.exitCode = some (static_cast_int ev.ExitProcess.dwExitCode)) ∨
      (¬ (ev.dwDebugEventCode = EXIT_PROCESS_DEBUG_EVENT ∧ ev.dwProcessId = r) ∧
        it.exitCode = none)) := by
  obtain ⟨ps, hok, hec, -⟩ := Debug_body_ok d h none ev it hb
  have hr1 := HandleDebugEvent_ok_root d it.debugger h ev ps r hok hroot
  obtain ⟨hg1, hg2⟩ := HandleDebugEvent_ok_flags d it.debugger h ev ps hok
  refine ⟨hr1, hg1.trans hf1, hg2.trans hf2, ?_⟩
  rw [hr1] at hec
  rcases HandleDebugEvent_ok_cases d it.debugger h ev ps hok with
    ⟨c, hps, -⟩ | ⟨c, hps, -⟩ | ⟨-, -, -, -, hrest⟩
  · right
    subst hps
    exact ⟨fun hh => absurd (c.symm.trans hh.1) (by decide), by simpa using hec⟩
  · right
    subst hps
    exact ⟨fun hh => absurd (c.symm.trans hh.1) (by decide), by simpa using hec⟩
  · rcases hrest with ⟨c, hps, -⟩ | ⟨c, hps, -⟩ | ⟨c, hd, hP, hT, hexn⟩ | ⟨c3, -, -, hps, -⟩
    · subst hps
      by_cases hpid : ev.dwProcessId = r
      · left
        refine ⟨c, hpid, ?_⟩
        simpa [hpid] using hec
      · right
        refine ⟨fun hh => hpid hh.2, ?_⟩
        have hne : (some r == some ev.dwProcessId) = false := by
          simpa using fun hh : r = ev.dwProcessId => hpid hh.symm
        simpa [hne] using hec
    · right
      subst hps
      exact ⟨fun hh => absurd (c.symm.trans hh.1) (by decide), by simpa using hec⟩
    · right
      refine ⟨fun hh => absurd (c.symm.trans hh.1) (by decide), ?_⟩
      by_cases hpid : ev.dwProcessId = r
      · rw [OnException_flags d d0 h ev hP hT hf1 hf2] at hexn
        have hnone := hexc c hpid hP hT ps hexn
        simpa [hnone] using hec
      · have hne : (some r == some ev.dwProcessId) = false := by
          simpa using fun hh : r = ev.dwProcessId => hpid hh.symm
        simpa [hne] using hec
    · right
      subst hps
      exact ⟨fun hh => c3 hh.1, by simpa using hec⟩

theorem Debug_body_before_root (d : Debugger) (h : IDebugEventsHandler) (ev : DEBUG_EVENT)
    (it : Iteration) (hroot : d.rootProcessId_ = none) (hempty : d.processHandles_ = [])
    (hb : Debug_body d h none ev = .ok it) :
    it.exitCode = none ∧
    it.debugger.stopOnAssert_ = d.stopOnAssert_ ∧
    it.debugger.continueAfterCppException_ = d.continueAfterCppException_ ∧
    ev.dwDebugEventCode ≠ EXIT_PROCESS_DEBUG_EVENT ∧
    ((ev.dwDebugEventCode = CREATE_PROCESS_DEBUG_EVENT ∧
        it.debugger.rootProcessId_ = some ev.dwProcessId) ∨
      (ev.dwDebugEventCode ≠ CREATE_PROCESS_DEBUG_EVENT ∧
        it.debugger.rootProcessId_ = none ∧ it.debugger.processHandles_ = [])) := by
  obtain ⟨ps, hok, hec, -⟩ := Debug_body_ok d h none ev it hb
  obtain ⟨hg1, hg2⟩ := HandleDebugEvent_ok_flags d it.debugger h ev ps hok
  rcases HandleDebugEvent_ok_cases d it.debugger h ev ps hok with
    ⟨c, hps, -, -, hd⟩ | ⟨c, hps, -, hd⟩ | ⟨-, -, hp, -, -⟩
  · subst hps
    refine ⟨by simpa using hec, hg1, hg2, by rw [c]; decide, Or.inl ⟨c, ?_⟩⟩
    rw [hd]
    simp [rootAfterCreate, hroot, hempty]
  · subst hps
    refine ⟨by simpa using hec, hg1, hg2, by rw [c]; decide, Or.inr ⟨by rw [c]; decide, ?_, ?_⟩⟩
    · rw [hd]; exact hroot
    · rw [hd]; exact hempty
  · rw [hempty] at hp
    simp [HandleMap.contains] at hp

theorem Debug_loop_recorded (h : IDebugEventsHandler) (r : DWORD) (x c : Nat)
    (fin : Debugger) :
    ∀ (script : List WaitResult) (d : Debugger), d.rootProcessId_ = some r →
      Debug_loop h d (some x) script = .returned c fin false →
      c = x ∧ fin.rootProcessId_ = some r := by
  intro script
  induction script with
  | nil => intro d _ hrun; simp [Debug_loop] at hrun
  | cons w script ih =>
    intro d hroot hrun
    rcases Debug_loop_cons_inv h d (some x) w script _ hrun (by simp) (by simp) with
      ⟨err, code, -, hrest⟩ | ⟨ev, ok, it, -, hb, hcase⟩
    · exact ih d hroot hrest
    · have hec := Debug_body_keeps_exit_code d h x ev it hb
      obtain ⟨ps, hok, -, -⟩ := Debug_body_ok d h (some x) ev it hb
      have hr1 := HandleDebugEvent_ok_root d it.debugger h ev ps r hok hroot
      rcases hcase with ⟨c1, hc1, -, hR⟩ | hrest
      · simp only [DebugResult.returned.injEq] at hR
        rw [hec] at hc1
        simp only [Option.some.injEq] at hc1
        exact ⟨hR.1.trans hc1.symm, by rw [hR.2.1]; exact hr1⟩
      · rw [hec] at hrest
        exact ih it.debugger hr1 hrest

theorem Debug_loop_root_exit (h : IDebugEventsHandler) (d0 : Debugger) (r : DWORD) (c : Nat)
    (fin : Debugger) :
    ∀ (script : List WaitResult) (d : Debugger), d.rootProcessId_ = some r →
      d.stopOnAssert_ = d0.stopOnAssert_ →
      d.continueAfterCppException_ = d0.continueAfterCppException_ →
      (∀ ev ok, WaitResult.event ev ok ∈ script →
        ev.dwDebugEventCode = EXCEPTION_DEBUG_EVENT → ev.dwProcessId = r →
        ∀ hProcess hThread ps, OnException d0 h ev hProcess hThread = .ok ps →
          ps.exitCode_ = none) →
      Debug_loop h d none script = .returned c fin false →
      ∃ x, firstExitCode r script = some x ∧ c = static_cast_int x ∧
        fin.rootProcessId_ = some r := by
  intro script
  induction script with
  | nil => intro d _ _ _ _ hrun; simp [Debug_loop] at hrun
  | cons w script ih =>
    intro d hroot hf1 hf2 hexc hrun
    have hexc2 : ∀ ev ok, WaitResult.event ev ok ∈ script →
        ev.dwDebugEventCode = EXCEPTION_DEBUG_EVENT → ev.dwProcessId = r →
        ∀ hProcess hThread ps, OnException d0 h ev hProcess hThread = .ok ps →
          ps.exitCode_ = none :=
      fun ev ok hm => hexc ev ok (List.mem_cons_of_mem _ hm)
    rcases Debug_loop_cons_inv h d none w script _ hrun (by simp) (by simp) with
      ⟨err, code, hw, hrest⟩ | ⟨ev, ok, it, hw, hb, hcase⟩
    · subst hw
      simpa [firstExitCode] using ih d hroot hf1 hf2 hexc2 hrest
    · subst hw
      obtain ⟨hr1, hg1, hg2, hrec⟩ := Debug_body_first_record d d0 h r ev it hroot hf1 hf2
        (hexc ev ok (List.mem_cons_self _ _)) hb
      rcases hrec with ⟨hc, hpid, hec⟩ | ⟨hnot, hec⟩
      · refine ⟨ev.ExitProcess.dwExitCode, by simp [firstExitCode, hc, hpid], ?_⟩
        rcases hcase with ⟨c1, hc1, -, hR⟩ | hrest
        · simp only [DebugResult.returned.injEq] at hR
          rw [hec] at hc1
          simp only [Option.some.injEq] at hc1
          exact ⟨hR.1.trans hc1.symm, by rw [hR.2.1]; exact hr1⟩
        · rw [hec] at hrest
          exact Debug_loop_recorded h r _ c fin script it.debugger hr1 hrest
      · rcases hcase with ⟨c1, hc1, -, -⟩ | hrest
        · rw [hec] at hc1
          exact absurd hc1 (by simp)
        · rw [hec] at hrest
          obtain ⟨x, hx, hcx, hfin⟩ := ih it.debugger hr1 hg1 hg2 hexc2 hrest
          refine ⟨x, ?_, hcx, hfin⟩
          simp only [firstExitCode]
          rw [if_neg hnot]
          exact hx

theorem Debug_loop_first_process (h : IDebugEventsHandler) (d0 : Debugger) (c : Nat)
    (fin : Debugger) :
    ∀ (script : List WaitResult) (d : Debugger), d.rootProcessId_ = none →
      d.processHandles_ = [] → d.stopOnAssert_ = d0.stopOnAssert_ →
      d.continueAfterCppException_ = d0.continueAfterCppException_ →
      (∀ ev ok, WaitResult.event ev ok ∈ script →
        ev.dwDebugEventCode = EXCEPTION_DEBUG_EVENT →
        firstCreatedProcess script = some ev.dwProcessId →
        ∀ hProcess hThread ps, OnException d0 h ev hProcess hThread = .ok ps →
          ps.exitCode_ = none) →
      Debug_loop h d none script = .returned c fin false →
      ∃ r x, firstCreatedProcess script = some r ∧ firstExitCode r script = some x ∧
        c = static_cast_int x ∧ fin.rootProcessId_ = some r := by
  intro script
  induction script with
  | nil => intro d _ _ _ _ _ hrun; simp [Debug_loop] at hrun
  | cons w script ih =>
    intro d hroot hempty hf1 hf2 hexc hrun
    rcases Debug_loop_cons_inv h d none w script _ hrun (by simp) (by simp) with
      ⟨err, code, hw, hrest⟩ | ⟨ev, ok, it, hw, hb, hcase⟩
    · subst hw
      have hexc2 : ∀ ev ok, WaitResult.event ev ok ∈ script →
          ev.dwDebugEventCode = EXCEPTION_DEBUG_EVENT →
          firstCreatedProcess script = some ev.dwProcessId →
          ∀ hProcess hThread ps, OnException d0 h ev hProcess hThread = .ok ps →
            ps.exitCode_ = none :=
        fun ev ok hm hc hfc =>
          hexc ev ok (List.mem_cons_of_mem _ hm) hc (by simpa [firstCreatedProcess] using hfc)
      simpa [firstCreatedProcess, firstExitCode] using ih d hroot hempty hf1 hf2 hexc2 hrest
    · subst hw
      obtain ⟨hec, hg1, hg2, hnexit, hkind⟩ := Debug_body_before_root d h ev it hroot hempty hb
      have hrest : Debug_loop h it.debugger none script = .returned c fin false := by
        rcases hcase with ⟨c1, hc1, -, -⟩ | hrest
        · rw [hec] at hc1
          exact absurd hc1 (by simp)
        · rw [hec] at hrest
          exact hrest
      have hskip : ∀ r, firstExitCode r (WaitResult.event ev ok :: script) =
          firstExitCode r script := by
        intro r
        simp only [firstExitCode]
        rw [if_neg (fun hh => hnexit hh.1)]
      rcases hkind with ⟨hc, hr1⟩ | ⟨hc, hr1, he1⟩
      · have hfirst : firstCreatedProcess (WaitResult.event ev ok :: script) =
            some ev.dwProcessId := by simp [firstCreatedProcess, hc]
        have hexc2 : ∀ ev1 ok1, WaitResult.event ev1 ok1 ∈ script →
            ev1.dwDebugEventCode = EXCEPTION_DEBUG_EVENT → ev1.dwProcessId = ev.dwProcessId →
            ∀ hProcess hThread ps, OnException d0 h ev1 hProcess hThread = .ok ps →
              ps.exitCode_ = none :=
          fun ev1 ok1 hm hc1 hpid =>
            hexc ev1 ok1 (List.mem_cons_of_mem _ hm) hc1 (by rw [hfirst, hpid])
        obtain ⟨x, hx, hcx, hfin⟩ := Debug_loop_root_exit h d0 ev.dwProcessId c fin script
          it.debugger hr1 (hg1.trans hf1) (hg2.trans hf2) hexc2 hrest
        exact ⟨ev.dwProcessId, x, hfirst, by rw [hskip]; exact hx, hcx, hfin⟩
      · have hfirst : firstCreatedProcess (WaitResult.event ev ok :: script) =
            firstCreatedProcess script := by simp [firstCreatedProcess, hc]
        have hexc2 : ∀ ev1 ok1, WaitResult.event ev1 ok1 ∈ script →
            ev1.dwDebugEventCode = EXCEPTION_DEBUG_EVENT →
            firstCreatedProcess script = some ev1.dwProcessId →
            ∀ hProcess hThread ps, OnException d0 h ev1 hProcess hThread = .ok ps →
              ps.exitCode_ = none :=
          fun ev1 ok1 hm hc1 hfc =>
            hexc ev1 ok1 (List.mem_cons_of_mem _ hm) hc1 (by rw [hfirst]; exact hfc)
        obtain ⟨r, x, hr, hx, hcx, hfin⟩ := ih it.debugger hr1 he1 (hg1.trans hf1)
          (hg2.trans hf2) hexc2 hrest
        exact ⟨r, x, by rw [hfirst]; exact hr, by rw [hskip]; exact hx, hcx, hfin⟩

theorem Debug_loop_waiting_root (h : IDebugEventsHandler) (r : DWORD) (d1 : Debugger)
    (ec1 : Option Nat) :
    ∀ (script : List WaitResult) (d : Debugger) (ec : Option Nat),
      d.rootProcessId_ = some r → Debug_loop h d ec script = .waiting d1 ec1 →
      d1.rootProcessId_ = some r := by
  intro script
  induction script with
  | nil =>
    intro d ec hroot hrun
    simp only [Debug_loop, DebugResult.waiting.injEq] at hrun
    rw [← hrun.1]; exact hroot
  | cons w script ih =>
    intro d ec hroot hrun
    rcases Debug_loop_cons_inv h d ec w script _ hrun (by simp) (by simp) with
      ⟨err, code, -, hrest⟩ | ⟨ev, ok, it, -, hb, hcase⟩
    · exact ih d ec hroot hrest
    · obtain ⟨ps, hok, -, -⟩ := Debug_body_ok d h ec ev it hb
      have hr1 := HandleDebugEvent_ok_root d it.debugger h ev ps r hok hroot
      rcases hcase with ⟨c1, -, -, hR⟩ | hrest
      · simp at hR
      · exact ih it.debugger it.exitCode hr1 hrest

theorem Debug_loop_waiting_first (h : IDebugEventsHandler) (r : DWORD) (d1 : Debugger)
    (ec1 : Option Nat) :
    ∀ (script : List WaitResult) (d : Debugger), d.rootProcessId_ = none →
      d.processHandles_ = [] → Debug_loop h d none script = .waiting d1 ec1 →
      firstCreatedProcess script = some r → d1.rootProcessId_ = some r := by
  intro script
  induction script with
  | nil => intro d _ _ _ hfc; simp [firstCreatedProcess] at hfc
  | cons w script ih =>
    intro d hroot hempty hrun hfc
    rcases Debug_loop_cons_inv h d none w script _ hrun (by simp) (by simp) with
      ⟨err, code, hw, hrest⟩ | ⟨ev, ok, it, hw, hb, hcase⟩
    · subst hw
      exact ih d hroot hempty hrest (by simpa [firstCreatedProcess] using hfc)
    · subst hw
      obtain ⟨hec, -, -, -, hkind⟩ := Debug_body_before_root d h ev it hroot hempty hb
      have hrest : Debug_loop h it.debugger none script = .waiting d1 ec1 := by
        rcases hcase with ⟨c1, -, -, hR⟩ | hrest
        · simp at hR
        · rw [hec] at hrest
          exact hrest
      rcases hkind with ⟨hc, hr1⟩ | ⟨hc, hr1, he1⟩
      · have hpid : ev.dwProcessId = r := by simpa [firstCreatedProcess, hc] using hfc
        rw [hpid] at hr1
        exact Debug_loop_waiting_root h r d1 ec1 script it.debugger none hr1 hrest
      · exact ih it.debugger hr1 he1 hrest (by simpa [firstCreatedProcess, hc] using hfc)

theorem Debug_loop_stopped (h : IDebugEventsHandler) (c : Nat) (fin : Debugger) :
    ∀ (script : List WaitResult) (d : Debugger) (ec : Option Nat),
      Debug_loop h d ec script = .returned c fin true →
      ∃ code, code ≠ STILL_ACTIVE ∧ WaitResult.timeout code ∈ script := by
  intro script
  induction script with
  | nil => intro d ec hrun; simp [Debug_loop] at hrun
  | cons w script ih =>
    intro d ec hrun
    have lift : (∃ code, code ≠ STILL_ACTIVE ∧ WaitResult.timeout code ∈ script) →
        ∃ code, code ≠ STILL_ACTIVE ∧ WaitResult.timeout code ∈ w :: script :=
      fun ⟨code, h1, h2⟩ => ⟨code, h1, List.mem_cons_of_mem _ h2⟩
    cases w with
    | failed err code =>
      simp only [Debug_loop] at hrun
      split_ifs at hrun with herr
      cases code with
      | none => simp at hrun
      | some code =>
        simp only at hrun
        split_ifs at hrun with hc
        · have herr2 : err = ERROR_SEM_TIMEOUT := by simpa using herr
          exact ⟨code, hc, by simp [WaitResult.timeout, herr2]⟩
        · exact lift (ih d ec hrun)
    | event ev ok =>
      simp only [Debug_loop] at hrun
      cases hb : Debug_body d h ec ev with
      | error e => rw [hb] at hrun; simp at hrun
      | ok it =>
        rw [hb] at hrun
        simp only at hrun
        cases ok with
        | false => simp at hrun
        | true =>
          simp only [Bool.not_true, Bool.false_eq_true, if_false] at hrun
          cases hec : it.exitCode with
          | none => rw [hec] at hrun; exact lift (ih _ _ hrun)
          | some c1 =>
            rw [hec] at hrun
            simp only at hrun
            split_ifs at hrun with hne
            · exact lift (ih _ _ hrun)
            · simp at hrun

/-! ### The choice of the main thread -/

theorem QuadPart_le (creation : FILETIME) : QuadPart creation ≤ 2 ^ 64 - 1 := by
  unfold QuadPart
  have h1 : creation.dwHighDateTime % 2 ^ 32 < 2 ^ 32 := Nat.mod_lt _ (by decide)
  have h2 : creation.dwLowDateTime % 2 ^ 32 < 2 ^ 32 := Nat.mod_lt _ (by decide)
  omega

theorem HandleNotCreationalEvent_failure_state (d : Debugger) (h : IDebugEventsHandler)
    (ev : DEBUG_EVENT) (hProcess hThread : HANDLE)
    (hp : d.processHandles_.contains ev.dwProcessId = true)
    (ht : d.threadHandles_.contains ev.dwThreadId = true)
    (hfail : returnedNormally
      (HandleNotCreationalEvent d h ev hProcess hThread ev.dwThreadId) = false) :
    (HandleNotCreationalEvent d h ev hProcess hThread ev.dwThreadId).2 = d := by
  unfold HandleNotCreationalEvent at hfail ⊢
  by_cases c1 : ev.dwDebugEventCode = EXIT_PROCESS_DEBUG_EVENT
  · simp [c1, OnExitProcess_eq, hp, ht, returnedNormally] at hfail
  rw [if_neg c1] at hfail ⊢
  by_cases c2 : ev.dwDebugEventCode = EXIT_THREAD_DEBUG_EVENT
  · simp [c2, OnExitThread_eq, ht, returnedNormally] at hfail
  rw [if_neg c2] at hfail ⊢
  split_ifs <;> rfl

/-! ### How the loop ends through its condition -/

theorem Debug_loop_event_stop (h : IDebugEventsHandler) (d : Debugger) (ec : Option Nat)
    (ev : DEBUG_EVENT) (it : Iteration) (c : Nat) (rest : List WaitResult)
    (hb : Debug_body d h ec ev = .ok it) (hc : it.exitCode = some c)
    (he : it.debugger.processHandles_ = []) :
    Debug_loop h d ec (.event ev true :: rest) = .returned c it.debugger false := by
  simp [Debug_loop, hb, hc, he]

theorem Debug_loop_event_continue (h : IDebugEventsHandler) (d : Debugger) (ec : Option Nat)
    (ev : DEBUG_EVENT) (it : Iteration) (rest : List WaitResult)
    (hb : Debug_body d h ec ev = .ok it)
    (hcont : it.exitCode = none ∨ it.debugger.processHandles_ ≠ []) :
    Debug_loop h d ec (.event ev true :: rest) = Debug_loop h it.debugger it.exitCode rest := by
  simp only [Debug_loop, hb]
  cases hec : it.exitCode with
  | none => simp
  | some c =>
    have hne : it.debugger.processHandles_ ≠ [] := by
      rcases hcont with hnone | hne
      · rw [hec] at hnone; exact absurd hnone (by simp)
      · exact hne
    have hemp : it.debugger.processHandles_.isEmpty = false := by
      cases hl : it.debugger.processHandles_ with
      | nil => exact absurd hl hne
      | cons e m => rfl
    simp [hemp]

theorem Debug_loop_returned_decomp (h : IDebugEventsHandler) (c : Nat) (fin : Debugger) :
    ∀ (script : List WaitResult) (d : Debugger) (ec : Option Nat),
      Debug_loop h d ec script = .returned c fin false →
      ∃ pre ev rest d1 ec1 it, script = pre ++ WaitResult.event ev true :: rest ∧
        Debug_loop h d ec pre = .waiting d1 ec1 ∧ Debug_body d1 h ec1 ev = .ok it ∧
        it.exitCode = some c ∧ it.debugger = fin ∧ fin.processHandles_ = [] := by
  intro script
  induction script with
  | nil => intro d ec hrun; simp [Debug_loop] at hrun
  | cons w script ih =>
    intro d ec hrun
    cases w with
    | failed err code =>
      simp only [Debug_loop] at hrun
      split_ifs at hrun with herr
      cases code with
      | none => simp at hrun
      | some code =>
        simp only at hrun
        split_ifs at hrun with hcode
        · simp at hrun
        · obtain ⟨pre, ev, rest, d1, ec1, it, hs, hw, hb, hc, hd, he⟩ := ih d ec hrun
          refine ⟨.failed err (some code) :: pre, ev, rest, d1, ec1, it, ?_, ?_, hb, hc, hd, he⟩
          · rw [hs]; rfl
          · simp only [Debug_loop]
            rw [if_neg herr, if_neg hcode]
            exact hw
    | event ev ok =>
      simp only [Debug_loop] at hrun
      cases hb : Debug_body d h ec ev with
      | error e => rw [hb] at hrun; simp at hrun
      | ok it =>
        rw [hb] at hrun
        simp only at hrun
        cases ok with
        | false => simp at hrun
        | true =>
          simp only [Bool.not_true, Bool.false_eq_true, if_false] at hrun
          by_cases hstop : ∃ c1, it.exitCode = some c1 ∧ it.debugger.processHandles_ = []
          · obtain ⟨c1, hc1, he1⟩ := hstop
            rw [hc1] at hrun
            simp only [he1, List.isEmpty_nil, Bool.not_true, Bool.false_eq_true, if_false,
              DebugResult.returned.injEq] at hrun
            refine ⟨[], ev, script, d, ec, it, rfl, rfl, hb, ?_, hrun.2.1, ?_⟩
            · rw [hc1, hrun.1]
            · rw [← hrun.2.1]; exact he1
          · have hcont : it.exitCode = none ∨ it.debugger.processHandles_ ≠ [] := by
              cases hec : it.exitCode with
              | none => exact Or.inl rfl
              | some c1 =>
                right
                intro he1
                exact hstop ⟨c1, hec, he1⟩
            have hstep := Debug_loop_event_continue h d ec ev it script hb hcont
            have hrun2 : Debug_loop h it.debugger it.exitCode script = .returned c fin false := by
              rw [← hstep]
              simp only [Debug_loop, hb]
              simpa using hrun
            obtain ⟨pre, ev1, rest, d1, ec1, it1, hs, hw, hb1, hc, hd, he⟩ :=
              ih it.debugger it.exitCode hrun2
            refine ⟨.event ev true :: pre, ev1, rest, d1, ec1, it1, ?_, ?_, hb1, hc, hd, he⟩
            · rw [hs]; rfl
            · rw [Debug_loop_event_continue h d ec ev it pre hb hcont]
              exact hw

/-- C1. For every value returned by the classifier and every setting of
`stopOnAssert_` and `continueAfterCppException_`, `OnException` returns the
outcome of the policy table: the exit code of the table (for `CppError` with
`continueAfterCppException_` the raw exception code of the record, a `DWORD`)
and the continuation status of the table; a value outside the five categories
makes it throw. -/
theorem OnException_policy_table (d : Debugger) (h : IDebugEventsHandler) (ev : DEBUG_EVENT)
    (hProcess hThread : HANDLE) (hcode : ev.Exception.ExceptionCode < 2 ^ 32) :
    OnException d h ev hProcess hThread =
      match policyTable d.stopOnAssert_ d.continueAfterCppException_ ev.Exception.ExceptionCode
          (h.OnException hProcess hThread ev.Exception) with
      | some o => .ok { exitCode_ := o.1, continueStatus_ := some o.2.status }
      | none => .error "Invalid exception Type." := by
  have hraw : static_cast_int ev.Exception.ExceptionCode = ev.Exception.ExceptionCode :=
    Nat.mod_eq_of_lt hcode
  have hbp : static_cast_int EXCEPTION_BREAKPOINT = EXCEPTION_BREAKPOINT := by decide
  simp only [OnException, hraw, hbp]
  generalize h.OnException hProcess hThread ev.Exception = t
  cases t
  case InvalidBreakPoint => cases hs : d.stopOnAssert_ <;> simp [policyTable, Continuation.status, hs]
  case CppError =>
    cases hs : d.continueAfterCppException_ <;> simp [policyTable, Continuation.status, hs]
  all_goals rfl

/-- Witness of C1: an access violation classified as `CppError` in a session
that continues after C++ exceptions gives exit code `0xC0000005` and
`DBG_CONTINUE`. -/
theorem OnException_policy_table_witness :
    accessViolation.Exception.ExceptionCode < 2 ^ 32 ∧
    OnException tolerantDebugger (constHandler .CppError) accessViolation 5 6 =
      .ok { exitCode_ := some 0xC0000005, continueStatus_ := some DBG_CONTINUE } :=
  ⟨by decide,
   OnException_policy_table tolerantDebugger (constHandler .CppError) accessViolation 5 6
    (by decide)⟩

/-- C5. With a classifier that returns one of the five categories (the `void`
notifications of the collaborator return normally in this embedding),
`HandleDebugEvent` throws exactly on a bookkeeping violation: for a
process-created event iff its process id or its initial thread id is already
registered, for a thread-created event iff its thread id is already registered,
for an event of any other kind iff its process id or its thread id is not
registered. -/
theorem HandleDebugEvent_fails_iff (d : Debugger) (h : IDebugEventsHandler) (ev : DEBUG_EVENT)
    (hcls : ∀ hp ht e, (h.OnException hp ht e).isEnumerator = true) :
    returnedNormally (HandleDebugEvent d h ev) = false ↔
      if ev.dwDebugEventCode = CREATE_PROCESS_DEBUG_EVENT then
        d.processHandles_.contains ev.dwProcessId = true ∨
          d.threadHandles_.contains ev.dwThreadId = true
      else if ev.dwDebugEventCode = CREATE_THREAD_DEBUG_EVENT then
        d.threadHandles_.contains ev.dwThreadId = true
      else
        d.processHandles_.contains ev.dwProcessId = false ∨
          d.threadHandles_.contains ev.dwThreadId = false := by
  by_cases c1 : ev.dwDebugEventCode = CREATE_PROCESS_DEBUG_EVENT
  · rw [if_pos c1]
    by_cases hp : d.processHandles_.contains ev.dwProcessId = true
    · simp [HandleDebugEvent, c1, OnCreateProcess_eq, hp, returnedNormally]
    · by_cases ht : d.threadHandles_.contains ev.dwThreadId = true <;>
        simp [HandleDebugEvent, c1, OnCreateProcess_eq, hp, ht, returnedNormally]
  rw [if_neg c1]
  by_cases c2 : ev.dwDebugEventCode = CREATE_THREAD_DEBUG_EVENT
  · rw [if_pos c2]
    by_cases ht : d.threadHandles_.contains ev.dwThreadId = true <;>
      simp +decide [HandleDebugEvent, c1, c2, OnCreateThread_eq, ht, returnedNormally]
  rw [if_neg c2]
  by_cases hp : d.processHandles_.contains ev.dwProcessId = true
  · by_cases ht : d.threadHandles_.contains ev.dwThreadId = true
    · obtain ⟨hP, hT, heq⟩ := HandleDebugEvent_not_creational d h ev c1 c2 hp ht
      rw [heq, HandleNotCreationalEvent_ok d h ev hP hT hcls hp ht]
      simp [hp, ht]
    · have htf : d.threadHandles_.contains ev.dwThreadId = false := by simpa using ht
      rw [HandleDebugEvent_unregistered d h ev c1 c2 (Or.inr htf)]
      simp [returnedNormally, htf]
  · have hpf : d.processHandles_.contains ev.dwProcessId = false := by simpa using hp
    rw [HandleDebugEvent_unregistered d h ev c1 c2 (Or.inl hpf)]
    simp [returnedNormally, hpf]

/-- Witness of C5: in a session that tracks process 1 with thread 1, a second
process-created event for process 1 throws. -/
theorem HandleDebugEvent_fails_iff_witness :
    (∀ hp ht e, ((constHandler .BreakPoint).OnException hp ht e).isEnumerator = true) ∧
    returnedNormally (HandleDebugEvent
      { sampleDebugger with processHandles_ := [(1, 101)], threadHandles_ := [(1, 201)],
                            rootProcessId_ := some 1 }
      (constHandler .BreakPoint) (createProcess 1 2)) = false :=
  ⟨fun _ _ _ => rfl,
   (HandleDebugEvent_fails_iff
      { sampleDebugger with processHandles_ := [(1, 101)], threadHandles_ := [(1, 201)],
                            rootProcessId_ := some 1 }
      (constHandler .BreakPoint) (createProcess 1 2) (fun _ _ _ => rfl)).mpr
    (by decide)⟩

/-- C6. A process-exited event whose process id and reporting thread id are
both registered is dispatched by removing the reporting thread first (the
process is still registered then), then the process: afterwards the two
registries hold exactly their former entries for other ids, the root process id
and the flags are as before, and the outcome carries the exit code reported in
the event and no continuation status. -/
theorem HandleDebugEvent_exit_process (d : Debugger) (h : IDebugEventsHandler)
    (ev : DEBUG_EVENT) (hcode : ev.dwDebugEventCode = EXIT_PROCESS_DEBUG_EVENT)
    (hp : d.processHandles_.contains ev.dwProcessId = true)
    (ht : d.threadHandles_.contains ev.dwThreadId = true)
    (hx : ev.ExitProcess.dwExitCode < 2 ^ 32) :
    (OnExitThread d ev.dwThreadId).1 = .ok () ∧
    (OnExitThread d ev.dwThreadId).2.threadHandles_.contains ev.dwThreadId = false ∧
    (OnExitThread d ev.dwThreadId).2.processHandles_ = d.processHandles_ ∧
    HandleDebugEvent d h ev =
      (.ok { exitCode_ := some ev.ExitProcess.dwExitCode, continueStatus_ := none },
       { (OnExitThread d ev.dwThreadId).2 with
          processHandles_ :=
            ((OnExitThread d ev.dwThreadId).2.processHandles_.erase ev.dwProcessId).1 }) ∧
    (HandleDebugEvent d h ev).2.threadHandles_.contains ev.dwThreadId = false ∧
    (HandleDebugEvent d h ev).2.processHandles_.contains ev.dwProcessId = false ∧
    (∀ e, e ∈ (HandleDebugEvent d h ev).2.threadHandles_ ↔
      e ∈ d.threadHandles_ ∧ e.1 ≠ ev.dwThreadId) ∧
    (∀ e, e ∈ (HandleDebugEvent d h ev).2.processHandles_ ↔
      e ∈ d.processHandles_ ∧ e.1 ≠ ev.dwProcessId) ∧
    (HandleDebugEvent d h ev).2.rootProcessId_ = d.rootProcessId_ ∧
    (HandleDebugEvent d h ev).2.stopOnAssert_ = d.stopOnAssert_ ∧
    (HandleDebugEvent d h ev).2.continueAfterCppException_ = d.continueAfterCppException_ ∧
    (HandleDebugEvent d h ev).2.coverChildren_ = d.coverChildren_ := by
  have c1 : ev.dwDebugEventCode ≠ CREATE_PROCESS_DEBUG_EVENT := by rw [hcode]; decide
  have c2 : ev.dwDebugEventCode ≠ CREATE_THREAD_DEBUG_EVENT := by rw [hcode]; decide
  have hraw : static_cast_int ev.ExitProcess.dwExitCode = ev.ExitProcess.dwExitCode :=
    Nat.mod_eq_of_lt hx
  obtain ⟨hP, hT, heq⟩ := HandleDebugEvent_not_creational d h ev c1 c2 hp ht
  have hev : HandleDebugEvent d h ev =
      (.ok { exitCode_ := some ev.ExitProcess.dwExitCode, continueStatus_ := none },
       { d with threadHandles_ := d.threadHandles_.filter (fun e => e.1 != ev.dwThreadId),
                processHandles_ :=
                  d.processHandles_.filter (fun e => e.1 != ev.dwProcessId) }) := by
    rw [heq]
    simp +decide [HandleNotCreationalEvent, hcode, OnExitProcess_eq, hp, ht, hraw]
  have hthr : OnExitThread d ev.dwThreadId =
      (.ok (), { d with threadHandles_ :=
        d.threadHandles_.filter (fun e => e.1 != ev.dwThreadId) }) := by
    rw [OnExitThread_eq, if_pos ht]
  rw [hev, hthr]
  refine ⟨rfl, ?_, rfl, rfl, ?_, ?_, ?_, ?_, rfl, rfl, rfl, rfl⟩
  · simp [HandleMap.contains_filter]
  · simp [HandleMap.contains_filter]
  · simp [HandleMap.contains_filter]
  · intro e; simp [List.mem_filter]
  · intro e; simp [List.mem_filter]

/-- Witness of C6: process 1 exits with code 3, reported by its thread 1, while
process 2 with thread 2 stays tracked. -/
theorem HandleDebugEvent_exit_process_witness :
    HandleDebugEvent
      { sampleDebugger with processHandles_ := [(2, 102), (1, 101)],
                            threadHandles_ := [(2, 202), (1, 201)], rootProcessId_ := some 1 }
      (constHandler .BreakPoint) (exitProcess 1 1 3) =
      (.ok { exitCode_ := some 3, continueStatus_ := none },
       { sampleDebugger with processHandles_ := [(2, 102)], threadHandles_ := [(2, 202)],
                             rootProcessId_ := some 1 }) :=
  (HandleDebugEvent_exit_process
    { sampleDebugger with processHandles_ := [(2, 102), (1, 101)],
                          threadHandles_ := [(2, 202), (1, 201)], rootProcessId_ := some 1 }
    (constHandler .BreakPoint) (exitProcess 1 1 3) rfl (by decide) (by decide)
    (by decide)).2.2.2.1

/-- C9. A DLL-loaded, DLL-unloaded, RIP or unrecognized event whose process id
and thread id are registered is dispatched without any change of the registries,
the root process id or the flags, with an outcome that has no exit code and no
continuation status; the loop then resumes the debuggee with `DBG_CONTINUE`,
keeps its recorded exit code and goes on waiting. -/
theorem HandleDebugEvent_passive_event (d : Debugger) (h : IDebugEventsHandler)
    (ev : DEBUG_EVENT) (exitCode : Option Nat) (rest : List WaitResult)
    (hkind : ev.dwDebugEventCode = LOAD_DLL_DEBUG_EVENT ∨
      ev.dwDebugEventCode = UNLOAD_DLL_DEBUG_EVENT ∨ ev.dwDebugEventCode = RIP_EVENT ∨
      unrecognized ev.dwDebugEventCode)
    (hp : d.processHandles_.contains ev.dwProcessId = true)
    (ht : d.threadHandles_.contains ev.dwThreadId = true) :
    HandleDebugEvent d h ev = (.ok { exitCode_ := none, continueStatus_ := none }, d) ∧
    Debug_body d h exitCode ev =
      .ok { debugger := d, exitCode := exitCode, continueStatus := DBG_CONTINUE } ∧
    Debug_loop h d exitCode (.event ev true :: rest) = Debug_loop h d exitCode rest := by
  have hne : ev.dwDebugEventCode ≠ CREATE_PROCESS_DEBUG_EVENT ∧
      ev.dwDebugEventCode ≠ CREATE_THREAD_DEBUG_EVENT ∧
      ev.dwDebugEventCode ≠ EXIT_PROCESS_DEBUG_EVENT ∧
      ev.dwDebugEventCode ≠ EXIT_THREAD_DEBUG_EVENT ∧
      ev.dwDebugEventCode ≠ EXCEPTION_DEBUG_EVENT := by
    rcases hkind with hk | hk | hk | hk
    · rw [hk]; decide
    · rw [hk]; decide
    · rw [hk]; decide
    · exact ⟨hk.1, hk.2.1, hk.2.2.1, hk.2.2.2.1, hk.2.2.2.2.2.2.1⟩
  obtain ⟨c1, c2, c3, c4, c5⟩ := hne
  obtain ⟨hP, hT, heq⟩ := HandleDebugEvent_not_creational d h ev c1 c2 hp ht
  have hev : HandleDebugEvent d h ev =
      (.ok { exitCode_ := none, continueStatus_ := none }, d) := by
    rw [heq]
    unfold HandleNotCreationalEvent
    rw [if_neg c3, if_neg c4]
    split_ifs <;> rfl
  have hbody : Debug_body d h exitCode ev =
      .ok { debugger := d, exitCode := exitCode, continueStatus := DBG_CONTINUE } := by
    simp [Debug_body, hev]
  refine ⟨hev, hbody, ?_⟩
  have hnonempty := isEmpty_of_contains _ _ hp
  simp only [Debug_loop, hbody]
  cases exitCode with
  | none => simp
  | some c => simp [hnonempty]

/-- Witness of C9: a DLL-loaded event of the tracked process 1 and thread 1. -/
theorem HandleDebugEvent_passive_event_witness :
    HandleDebugEvent oneProcess (constHandler .BreakPoint) (mkEvent LOAD_DLL_DEBUG_EVENT 1 1) =
      (.ok { exitCode_ := none, continueStatus_ := none }, oneProcess) :=
  (HandleDebugEvent_passive_event oneProcess (constHandler .BreakPoint)
    (mkEvent LOAD_DLL_DEBUG_EVENT 1 1) none [] (Or.inl rfl) (by decide) (by decide)).1

/-- C7. After any run that leaves the loop of `Debug` waiting, any number of
wait timeouts at which the root process is still active leave the loop waiting
with the same registries and the same recorded exit code, and the loop goes on
with whatever comes next; at the first timeout at which the root process is
found inactive the loop stops at once and `Debug` returns 108. -/
theorem Debug_liveness_check (d : Debugger) (h : IDebugEventsHandler)
    (pre rest : List WaitResult) (d1 : Debugger) (ec : Option Nat) (n : Nat) (code : DWORD)
    (hpre : Debug d h pre = .waiting d1 ec) (hcode : code ≠ STILL_ACTIVE) :
    Debug d h (pre ++ List.replicate n (.timeout STILL_ACTIVE)) = .waiting d1 ec ∧
    Debug d h (pre ++ (List.replicate n (.timeout STILL_ACTIVE) ++ rest)) =
      Debug_loop h d1 ec rest ∧
    Debug d h (pre ++ (List.replicate n (.timeout STILL_ACTIVE) ++ .timeout code :: rest)) =
      .returned 108 d1 true := by
  have hrep : ∀ (m : Nat) (more : List WaitResult),
      Debug_loop h d1 ec (List.replicate m (.timeout STILL_ACTIVE) ++ more) =
        Debug_loop h d1 ec more := by
    intro m more
    induction m with
    | zero => rfl
    | succ m ih => rw [List.replicate_succ, List.cons_append, Debug_loop_timeout_active, ih]
  unfold Debug at hpre ⊢
  refine ⟨?_, ?_, ?_⟩
  · rw [Debug_loop_append h _ pre _ _ _ _ hpre]
    have := hrep n []
    rw [List.append_nil] at this
    rw [this]; rfl
  · rw [Debug_loop_append h _ pre _ _ _ _ hpre, hrep]
  · rw [Debug_loop_append h _ pre _ _ _ _ hpre, hrep,
      Debug_loop_timeout_inactive h d1 ec code hcode]

/-- Witness of C7: after the process-created event of the root, three timeouts
with an active root and one that finds exit status 0. -/
theorem Debug_liveness_check_witness :
    Debug sampleDebugger (constHandler .BreakPoint)
      ([.event (createProcess 1 1) true] ++
        (List.replicate 3 (.timeout STILL_ACTIVE) ++ [.timeout 0])) =
      .returned 108 oneProcess true :=
  (Debug_liveness_check sampleDebugger (constHandler .BreakPoint)
    [.event (createProcess 1 1) true] [] oneProcess none 3 0 (by decide) (by decide)).2.2

/-- C3 as stated fails. After the process-created event of the root, a timeout
that finds the root inactive stops the loop while process 1 is still registered
(and no exit code was recorded before it); and with a child (process 2) still
registered after the root has exited with code 5, the loop is still waiting with
5 recorded, and the same timeout stops it with the child registered. -/
theorem Debug_stops_with_tracked_process :
    (Debug sampleDebugger (constHandler .BreakPoint) [.event (createProcess 1 1) true] =
        .waiting oneProcess none ∧
      Debug sampleDebugger (constHandler .BreakPoint)
        [.event (createProcess 1 1) true, .timeout 0] = .returned 108 oneProcess true ∧
      oneProcess.processHandles_ ≠ []) ∧
    Debug sampleDebugger (constHandler .BreakPoint)
        [.event (createProcess 1 1) true, .event (createProcess 2 2) true,
         .event (exitProcess 1 1 5) true] =
      .waiting
        { sampleDebugger with processHandles_ := [(2, 102)], threadHandles_ := [(2, 202)],
                              rootProcessId_ := some 1 } (some 5) ∧
    Debug sampleDebugger (constHandler .BreakPoint)
        [.event (createProcess 1 1) true, .event (createProcess 2 2) true,
         .event (exitProcess 1 1 5) true, .timeout 0] =
      .returned 108
        { sampleDebugger with processHandles_ := [(2, 102)], threadHandles_ := [(2, 202)],
                              rootProcessId_ := some 1 } true := by
  decide

/-- C3, amended. The loop of `Debug` ends through its condition exactly when the
process registry is empty and an exit code is recorded. After any run that left
the loop waiting and a delivered event that is dispatched and continued: if the
exit code recorded after the event is `c` and the process registry is empty,
`Debug` returns at once, the value `c`; if no exit code is recorded or a process
is still registered, the loop goes on waiting with that recorded exit code.
Whenever `Debug` has returned through the condition, it did so right after such
an event, the value returned is the exit code recorded then and the process
registry is empty. The loop also ends through the `break` of the liveness
check: then the script has a wait timeout that found the root inactive and 108
is returned whatever the registry holds. As long as the loop is waiting, no exit
code is recorded or a process is still registered. -/
theorem Debug_stops_iff (d : Debugger) (h : IDebugEventsHandler) (script : List WaitResult) :
    (∀ c fin, Debug d h script = .returned c fin false →
      fin.processHandles_ = [] ∧ GetRunningProcesses fin = 0 ∧
        loopCondition fin (some c) = false ∧
        ∃ pre ev rest d1 ec1 it, script = pre ++ WaitResult.event ev true :: rest ∧
          Debug d h pre = .waiting d1 ec1 ∧ Debug_body d1 h ec1 ev = .ok it ∧
          it.exitCode = some c ∧ it.debugger = fin) ∧
    (∀ c fin, Debug d h script = .returned c fin true →
      c = 108 ∧ ∃ code, code ≠ STILL_ACTIVE ∧ WaitResult.timeout code ∈ script) ∧
    (∀ fin ec, Debug d h script = .waiting fin ec →
      ec = none ∨ fin.processHandles_ ≠ []) ∧
    (∀ pre rest d1 ec1 ev it, Debug d h pre = .waiting d1 ec1 →
      Debug_body d1 h ec1 ev = .ok it →
      (∀ c, it.exitCode = some c → it.debugger.processHandles_ = [] →
        Debug d h (pre ++ WaitResult.event ev true :: rest) =
          .returned c it.debugger false) ∧
      (it.exitCode = none ∨ it.debugger.processHandles_ ≠ [] →
        Debug d h (pre ++ WaitResult.event ev true :: rest) =
          Debug_loop h it.debugger it.exitCode rest ∧
        Debug d h (pre ++ [WaitResult.event ev true]) =
          .waiting it.debugger it.exitCode)) := by
  have key := Debug_loop_stops h script
    { d with processHandles_ := [], threadHandles_ := [], rootProcessId_ := none } none rfl
  refine ⟨?_, ?_, ?_, ?_⟩
  · intro c fin hr
    unfold Debug at hr
    obtain ⟨pre, ev, rest, d1, ec1, it, hs, hw, hb, hc, hd, -⟩ :=
      Debug_loop_returned_decomp h c fin script _ _ hr
    rw [hr] at key
    have he := key.1 rfl
    exact ⟨he, by simp [GetRunningProcesses, he], by simp [loopCondition, he],
      pre, ev, rest, d1, ec1, it, hs, hw, hb, hc, hd⟩
  · intro c fin hr
    unfold Debug at hr
    have hstop := Debug_loop_stopped h c fin script _ _ hr
    rw [hr] at key
    exact ⟨key.2 rfl, hstop⟩
  · intro fin ec hr
    unfold Debug at hr
    rw [hr] at key
    cases ec with
    | none => exact Or.inl rfl
    | some c =>
      right
      intro he
      simp [loopCondition, he] at key
  · intro pre rest d1 ec1 ev it hpre hb
    unfold Debug at hpre ⊢
    refine ⟨?_, ?_⟩
    · intro c hc he
      rw [Debug_loop_append h _ pre _ _ _ _ hpre]
      exact Debug_loop_event_stop h d1 ec1 ev it c rest hb hc he
    · intro hcont
      rw [Debug_loop_append h _ pre _ _ _ _ hpre, Debug_loop_append h _ pre _ _ _ _ hpre]
      exact ⟨Debug_loop_event_continue h d1 ec1 ev it rest hb hcont,
        by rw [Debug_loop_event_continue h d1 ec1 ev it [] hb hcont]; rfl⟩

/-- Witness of C3 amended: the root is created and exits with code 3; the loop
ends through its condition right after the exit event, with an empty registry,
and returns the 3 recorded at that event. -/
theorem Debug_stops_iff_witness :
    Debug sampleDebugger (constHandler .BreakPoint)
        [.event (createProcess 1 1) true, .event (exitProcess 1 1 3) true] =
      .returned 3 { sampleDebugger with rootProcessId_ := some 1 } false ∧
    (({ sampleDebugger with rootProcessId_ := some 1 } : Debugger).processHandles_ = [] ∧
      GetRunningProcesses { sampleDebugger with rootProcessId_ := some 1 } = 0 ∧
      loopCondition { sampleDebugger with rootProcessId_ := some 1 } (some 3) = false ∧
      ∃ pre ev rest d1 ec1 it,
        [WaitResult.event (createProcess 1 1) true, .event (exitProcess 1 1 3) true] =
          pre ++ WaitResult.event ev true :: rest ∧
        Debug sampleDebugger (constHandler .BreakPoint) pre = .waiting d1 ec1 ∧
        Debug_body d1 (constHandler .BreakPoint) ec1 ev = .ok it ∧
        it.exitCode = some 3 ∧
        it.debugger = { sampleDebugger with rootProcessId_ := some 1 }) ∧
    Debug sampleDebugger (constHandler .BreakPoint)
        ([.event (createProcess 1 1) true] ++
          [WaitResult.event (mkEvent CREATE_THREAD_DEBUG_EVENT 1 2) true]) =
      .waiting { oneProcess with threadHandles_ := [(2, 0), (1, 201)] } none :=
  ⟨by decide,
   (Debug_stops_iff sampleDebugger (constHandler .BreakPoint)
      [.event (createProcess 1 1) true, .event (exitProcess 1 1 3) true]).1 3
      { sampleDebugger with rootProcessId_ := some 1 } (by decide),
   ((Debug_stops_iff sampleDebugger (constHandler .BreakPoint) []).2.2.2
      [.event (createProcess 1 1) true] [] oneProcess none
      (mkEvent CREATE_THREAD_DEBUG_EVENT 1 2)
      { debugger := { oneProcess with threadHandles_ := [(2, 0), (1, 201)] },
        exitCode := none, continueStatus := DBG_CONTINUE }
      (by decide) rfl).2 (Or.inl rfl) |>.2⟩

/-- C2 on the code. In a session where an `InvalidBreakPoint` of the root has
recorded the exit code `EXCEPTION_BREAKPOINT`, a later timeout that finds the
root inactive assigns 108 over it, and `Debug` returns 108, not the first
value. -/
theorem Debug_timeout_overwrites_exit_code :
    Debug sampleDebugger (constHandler .InvalidBreakPoint)
        [.event (createProcess 1 1) true, .event breakEvent true] =
      .waiting oneProcess (some EXCEPTION_BREAKPOINT) ∧
    Debug sampleDebugger (constHandler .InvalidBreakPoint)
        [.event (createProcess 1 1) true, .event breakEvent true, .timeout 0] =
      .returned 108 oneProcess true := by
  decide

/-- C4. Starting from empty registries, after any sequence of events all
dispatched without a throw, `GetRunningProcesses` is the number of
process-created events minus the number of process-exited events, and
`GetRunningThreads` is the number of thread registrations (thread-created events
and the initial thread of each process-created event) minus the number of thread
removals (thread-exited events and the reporting thread of each process-exited
event). -/
theorem registry_size_eq_creations_minus_exits (d fin : Debugger) (h : IDebugEventsHandler)
    (events : List DEBUG_EVENT) (hp0 : d.processHandles_ = []) (ht0 : d.threadHandles_ = [])
    (hrun : dispatchAll h d events = some fin) :
    GetRunningProcesses fin =
      countEvents CREATE_PROCESS_DEBUG_EVENT events -
        countEvents EXIT_PROCESS_DEBUG_EVENT events ∧
    countEvents EXIT_PROCESS_DEBUG_EVENT events ≤
      countEvents CREATE_PROCESS_DEBUG_EVENT events ∧
    GetRunningThreads fin =
      (countEvents CREATE_THREAD_DEBUG_EVENT events +
          countEvents CREATE_PROCESS_DEBUG_EVENT events) -
        (countEvents EXIT_THREAD_DEBUG_EVENT events +
          countEvents EXIT_PROCESS_DEBUG_EVENT events) ∧
    countEvents EXIT_THREAD_DEBUG_EVENT events + countEvents EXIT_PROCESS_DEBUG_EVENT events ≤
      countEvents CREATE_THREAD_DEBUG_EVENT events +
        countEvents CREATE_PROCESS_DEBUG_EVENT events := by
  have hwp : d.processHandles_.WF := by rw [hp0]; exact HandleMap.WF_nil
  have hwt : d.threadHandles_.WF := by rw [ht0]; exact HandleMap.WF_nil
  obtain ⟨h1, h2⟩ := dispatchAll_sizes h events d fin hrun hwp hwt
  rw [hp0] at h1
  rw [ht0] at h2
  simp only [List.length_nil, Nat.zero_add] at h1 h2
  unfold GetRunningProcesses GetRunningThreads
  refine ⟨?_, ?_, ?_, ?_⟩ <;> omega

/-- Witness of C4: process 1 is created with thread 1, creates thread 2, which
exits; one process and one thread are running. -/
theorem registry_size_eq_creations_minus_exits_witness :
    dispatchAll (constHandler .BreakPoint) sampleDebugger
        [createProcess 1 1, mkEvent CREATE_THREAD_DEBUG_EVENT 1 2,
         mkEvent EXIT_THREAD_DEBUG_EVENT 1 2] = some oneProcess ∧
    GetRunningProcesses oneProcess = 1 - 0 ∧ GetRunningThreads oneProcess = (1 + 1) - (1 + 0) :=
  ⟨by decide,
   (registry_size_eq_creations_minus_exits sampleDebugger oneProcess
      (constHandler .BreakPoint)
      [createProcess 1 1, mkEvent CREATE_THREAD_DEBUG_EVENT 1 2,
       mkEvent EXIT_THREAD_DEBUG_EVENT 1 2] rfl rfl (by decide)).1,
   (registry_size_eq_creations_minus_exits sampleDebugger oneProcess
      (constHandler .BreakPoint)
      [createProcess 1 1, mkEvent CREATE_THREAD_DEBUG_EVENT 1 2,
       mkEvent EXIT_THREAD_DEBUG_EVENT 1 2] rfl rfl (by decide)).2.2.1⟩

/-- C8. On a script on which `Debug` returns (so no dispatch has thrown), no
wait timeout finds the root inactive and no exception event of the root yields
an exit code, the script has a first process-created event, its process has a
process-exited event, and the value returned is the exit code carried by the
first such event; the root process id is the id of that first process-created
event at every later point of the run and at its end; a dispatch never changes a
root process id that is set, and an event of a process other than the root never
changes the recorded exit code. -/
theorem Debug_returns_root_exit_code (d : Debugger) (h : IDebugEventsHandler)
    (script : List WaitResult) (c : Nat) (fin : Debugger) (stopped : Bool)
    (hret : Debug d h script = .returned c fin stopped)
    (hlive : ∀ code, WaitResult.timeout code ∈ script → code = STILL_ACTIVE)
    (hexc : ∀ ev ok, WaitResult.event ev ok ∈ script →
      ev.dwDebugEventCode = EXCEPTION_DEBUG_EVENT →
      firstCreatedProcess script = some ev.dwProcessId →
      ∀ hProcess hThread ps, OnException d h ev hProcess hThread = .ok ps →
        ps.exitCode_ = none) :
    (∃ r x, firstCreatedProcess script = some r ∧ firstExitCode r script = some x ∧
      c = static_cast_int x ∧ (x < 2 ^ 32 → c = x) ∧ fin.rootProcessId_ = some r) ∧
    (∀ pre d1 ec1 r, Debug d h pre = .waiting d1 ec1 → firstCreatedProcess pre = some r →
      d1.rootProcessId_ = some r) ∧
    (∀ d1 d2 ev ps r, HandleDebugEvent d1 h ev = (.ok ps, d2) → d1.rootProcessId_ = some r →
      d2.rootProcessId_ = some r) ∧
    (∀ d1 ec ev it, Debug_body d1 h ec ev = .ok it →
      it.debugger.rootProcessId_ ≠ some ev.dwProcessId → it.exitCode = ec) := by
  refine ⟨?_, ?_, ?_, ?_⟩
  · have hs : stopped = false := by
      cases stopped with
      | false => rfl
      | true =>
        obtain ⟨code, hne, hmem⟩ := Debug_loop_stopped h c fin script _ _ hret
        exact absurd (hlive code hmem) hne
    subst hs
    obtain ⟨r, x, hr, hx, hcx, hfin⟩ := Debug_loop_first_process h d c fin script
      { d with processHandles_ := [], threadHandles_ := [], rootProcessId_ := none }
      rfl rfl rfl rfl hexc hret
    exact ⟨r, x, hr, hx, hcx, fun hlt => hcx.trans (Nat.mod_eq_of_lt hlt), hfin⟩
  · intro pre d1 ec1 r hw hfc
    exact Debug_loop_waiting_first h r d1 ec1 pre
      { d with processHandles_ := [], threadHandles_ := [], rootProcessId_ := none }
      rfl rfl hw hfc
  · intro d1 d2 ev ps r hok hroot
    exact HandleDebugEvent_ok_root d1 d2 h ev ps r hok hroot
  · intro d1 ec ev it hb hother
    exact Debug_body_other_process d1 h ec ev it hb hother

/-- Witness of C8: the root (process 1) and a child (process 2) are created, the
child exits with code 7, then the root exits with code 3; `Debug` returns 3. -/
theorem Debug_returns_root_exit_code_witness :
    Debug sampleDebugger (constHandler .BreakPoint)
        [.event (createProcess 1 1) true, .event (createProcess 2 2) true,
         .event (exitProcess 2 2 7) true, .event (exitProcess 1 1 3) true] =
      .returned 3 { sampleDebugger with rootProcessId_ := some 1 } false ∧
    ∃ r x, firstCreatedProcess
        [.event (createProcess 1 1) true, .event (createProcess 2 2) true,
         .event (exitProcess 2 2 7) true, .event (exitProcess 1 1 3) true] = some r ∧
      firstExitCode r
        [.event (createProcess 1 1) true, .event (createProcess 2 2) true,
         .event (exitProcess 2 2 7) true, .event (exitProcess 1 1 3) true] = some x ∧
      (3 : Nat) = static_cast_int x ∧ (x < 2 ^ 32 → (3 : Nat) = x) ∧
      ({ sampleDebugger with rootProcessId_ := some 1 } : Debugger).rootProcessId_ = some r :=
  ⟨by decide,
   (Debug_returns_root_exit_code sampleDebugger (constHandler .BreakPoint)
      [.event (createProcess 1 1) true, .event (createProcess 2 2) true,
       .event (exitProcess 2 2 7) true, .event (exitProcess 1 1 3) true]
      3 { sampleDebugger with rootProcessId_ := some 1 } false (by decide)
      (by
        intro code hmem
        simp [WaitResult.timeout] at hmem)
      (by
        intro ev ok hmem hc
        simp only [List.mem_cons, WaitResult.event.injEq, List.mem_singleton,
          List.not_mem_nil, or_false] at hmem
        rcases hmem with ⟨rfl, -⟩ | ⟨rfl, -⟩ | ⟨rfl, -⟩ | ⟨rfl, -⟩ <;>
          exact absurd hc (by decide))).1⟩

/-- C11 as stated fails. For a target process 1 with the enumerated threads 1
and 2 the bootstrap completes and builds the process-created event for thread 1
and a thread-created event for thread 2, but when `Debug` enters its wait loop
both registries are empty and no root is set, and the first real event, the exit
of thread 2 of process 1, throws for a missing id. -/
theorem Debug_attached_first_event_fails :
    (∃ b, attachBootstrap sampleTarget = .ok b ∧ b.debugEvent.dwProcessId = 1 ∧
      b.debugEvent.dwThreadId = 1 ∧ b.threadEvents.map (fun ev => ev.dwThreadId) = [2] ∧
      b.dllEvents.length = 1) ∧
    Debug_attached sampleDebugger (constHandler .BreakPoint) sampleTarget [] =
      .waiting sampleDebugger none ∧
    sampleDebugger.processHandles_.contains 1 = false ∧
    sampleDebugger.rootProcessId_ = none ∧
    Debug_attached sampleDebugger (constHandler .BreakPoint) sampleTarget
        [.event (mkEvent EXIT_THREAD_DEBUG_EVENT 1 2) true] =
      .threw "std::out_of_range" sampleDebugger :=
  ⟨⟨_, rfl, rfl, rfl, rfl, rfl⟩, rfl, rfl, rfl, rfl⟩

/-- C11, amended. In attach mode the bootstrap builds the process-created,
thread-created and DLL-loaded events but dispatches none of them, and the
registries are reset after it: `Debug` runs as without the bootstrap and enters
its wait loop with both registries empty and no root process id; a first real
event that is not a creation event throws for a missing id; a first real
process-created event registers its process id and thread id and makes the
process the root, after which the lookups of a non-creation event for that
process and thread succeed. -/
theorem Debug_attached_loop_entry (d : Debugger) (h : IDebugEventsHandler) (t : AttachTarget)
    (b : Bootstrap) (hboot : attachBootstrap t = .ok b) :
    (∀ script, Debug_attached d h t script = Debug d h script) ∧
    Debug_attached d h t [] = .waiting (afterReset d) none ∧
    (afterReset d).processHandles_ = [] ∧ (afterReset d).threadHandles_ = [] ∧
    (afterReset d).rootProcessId_ = none ∧
    (∀ ev ok rest, ev.dwDebugEventCode ≠ CREATE_PROCESS_DEBUG_EVENT →
      ev.dwDebugEventCode ≠ CREATE_THREAD_DEBUG_EVENT →
      Debug_attached d h t (.event ev ok :: rest) =
        .threw "std::out_of_range" (afterReset d)) ∧
    (∀ ev, ev.dwDebugEventCode = CREATE_PROCESS_DEBUG_EVENT →
      Debug_attached d h t [.event ev true] =
        .waiting
          { afterReset d with
            rootProcessId_ := some ev.dwProcessId,
            processHandles_ := [(ev.dwProcessId, ev.CreateProcessInfo.hProcess)],
            threadHandles_ := [(ev.dwThreadId, ev.CreateProcessInfo.hThread)] } none) ∧
    (∀ ev0 ev : DEBUG_EVENT, ev.dwDebugEventCode ≠ CREATE_PROCESS_DEBUG_EVENT →
      ev.dwDebugEventCode ≠ CREATE_THREAD_DEBUG_EVENT →
      ev.dwProcessId = ev0.dwProcessId → ev.dwThreadId = ev0.dwThreadId →
      ∃ hProcess hThread,
        HandleDebugEvent
            { afterReset d with
              rootProcessId_ := some ev0.dwProcessId,
              processHandles_ := [(ev0.dwProcessId, ev0.CreateProcessInfo.hProcess)],
              threadHandles_ := [(ev0.dwThreadId, ev0.CreateProcessInfo.hThread)] } h ev =
          HandleNotCreationalEvent
            { afterReset d with
              rootProcessId_ := some ev0.dwProcessId,
              processHandles_ := [(ev0.dwProcessId, ev0.CreateProcessInfo.hProcess)],
              threadHandles_ := [(ev0.dwThreadId, ev0.CreateProcessInfo.hThread)] } h ev
            hProcess hThread ev.dwThreadId) := by
  have hsame : ∀ script, Debug_attached d h t script = Debug d h script := by
    intro script
    simp only [Debug_attached, hboot]
  refine ⟨hsame, ?_, rfl, rfl, rfl, ?_, ?_, ?_⟩
  · rw [hsame]; rfl
  · intro ev ok rest c1 c2
    rw [hsame]
    have hun := HandleDebugEvent_unregistered (afterReset d) h ev c1 c2 (Or.inl rfl)
    have hbody : Debug_body (afterReset d) h none ev =
        .error ("std::out_of_range", afterReset d) := by
      simp only [Debug_body, hun]
    show Debug_loop h (afterReset d) none (.event ev ok :: rest) = _
    simp only [Debug_loop, hbody]
  · intro ev c
    rw [hsame]
    have hstep : HandleDebugEvent (afterReset d) h ev =
        (.ok {},
          { afterReset d with
            rootProcessId_ := some ev.dwProcessId,
            processHandles_ := [(ev.dwProcessId, ev.CreateProcessInfo.hProcess)],
            threadHandles_ := [(ev.dwThreadId, ev.CreateProcessInfo.hThread)] }) := by
      simp [HandleDebugEvent, c, OnCreateProcess_eq, afterReset, HandleMap.contains,
        rootAfterCreate]
    show Debug_loop h (afterReset d) none [.event ev true] = _
    simp [Debug_loop, Debug_body, hstep]
  · intro ev0 ev c1 c2 hpid htid
    exact HandleDebugEvent_not_creational _ h ev c1 c2
      (by simp [HandleMap.contains, hpid]) (by simp [HandleMap.contains, htid])

/-- Witness of C11 amended: the bootstrap of the sample target completes, and
the first real event, the process-created event of process 1 with thread 1,
makes process 1 the root with both ids registered. -/
theorem Debug_attached_loop_entry_witness :
    (∃ b, attachBootstrap sampleTarget = .ok b) ∧
    Debug_attached sampleDebugger (constHandler .BreakPoint) sampleTarget
        [.event (createProcess 1 1) true] =
      .waiting oneProcess none :=
  ⟨⟨_, rfl⟩,
   (Debug_attached_loop_entry sampleDebugger (constHandler .BreakPoint) sampleTarget _
      rfl).2.2.2.2.2.2.1 (createProcess 1 1) rfl⟩

/-- C12. Whenever `HandleDebugEvent` throws, the process registry, the thread
registry, the root process id and the flags are as before the event, with one
exception: a process-created event whose process id is not registered throws
only because its initial thread id is registered, and then the process id has
been registered (and made root when no root was set and no process was
tracked) while the thread registry is as before. -/
theorem HandleDebugEvent_failure_atomic (d : Debugger) (h : IDebugEventsHandler)
    (ev : DEBUG_EVENT) (hfail : returnedNormally (HandleDebugEvent d h ev) = false) :
    if ev.dwDebugEventCode = CREATE_PROCESS_DEBUG_EVENT ∧
        d.processHandles_.contains ev.dwProcessId = false then
      d.threadHandles_.contains ev.dwThreadId = true ∧
      (HandleDebugEvent d h ev).2 =
        { d with
          rootProcessId_ :=
            if d.rootProcessId_.isNone && d.processHandles_.isEmpty then some ev.dwProcessId
            else d.rootProcessId_,
          processHandles_ :=
            (ev.dwProcessId, ev.CreateProcessInfo.hProcess) :: d.processHandles_ } ∧
      (HandleDebugEvent d h ev).2.processHandles_.contains ev.dwProcessId = true ∧
      (HandleDebugEvent d h ev).2.threadHandles_ = d.threadHandles_
    else (HandleDebugEvent d h ev).2 = d := by
  by_cases c1 : ev.dwDebugEventCode = CREATE_PROCESS_DEBUG_EVENT
  · by_cases hp : d.processHandles_.contains ev.dwProcessId = true
    · have hcond : ¬ (ev.dwDebugEventCode = CREATE_PROCESS_DEBUG_EVENT ∧
          d.processHandles_.contains ev.dwProcessId = false) := by simp [hp]
      rw [if_neg hcond]
      simp [HandleDebugEvent, c1, OnCreateProcess_eq, hp]
    · have hpf : d.processHandles_.contains ev.dwProcessId = false := by simpa using hp
      rw [if_pos ⟨c1, hpf⟩]
      by_cases ht : d.threadHandles_.contains ev.dwThreadId = true
      · refine ⟨ht, ?_, ?_, ?_⟩ <;>
          simp [HandleDebugEvent, c1, OnCreateProcess_eq, hpf, ht, rootAfterCreate,
            HandleMap.contains_cons]
      · simp [HandleDebugEvent, c1, OnCreateProcess_eq, hpf, ht, returnedNormally] at hfail
  · have hcond : ¬ (ev.dwDebugEventCode = CREATE_PROCESS_DEBUG_EVENT ∧
        d.processHandles_.contains ev.dwProcessId = false) := fun hh => c1 hh.1
    rw [if_neg hcond]
    by_cases c2 : ev.dwDebugEventCode = CREATE_THREAD_DEBUG_EVENT
    · by_cases ht : d.threadHandles_.contains ev.dwThreadId = true
      · simp +decide [HandleDebugEvent, c2, OnCreateThread_eq, ht]
      · simp +decide [HandleDebugEvent, c2, OnCreateThread_eq, ht, returnedNormally] at hfail
    · by_cases hreg : d.processHandles_.contains ev.dwProcessId = true ∧
          d.threadHandles_.contains ev.dwThreadId = true
      · obtain ⟨hp, ht⟩ := hreg
        obtain ⟨hP, hT, heq⟩ := HandleDebugEvent_not_creational d h ev c1 c2 hp ht
        rw [heq] at hfail ⊢
        exact HandleNotCreationalEvent_failure_state d h ev hP hT hp ht hfail
      · have hreg2 : d.processHandles_.contains ev.dwProcessId = false ∨
            d.threadHandles_.contains ev.dwThreadId = false := by
          by_cases hp : d.processHandles_.contains ev.dwProcessId = true
          · right
            by_cases ht : d.threadHandles_.contains ev.dwThreadId = true
            · exact absurd ⟨hp, ht⟩ hreg
            · simpa using ht
          · left; simpa using hp
        rw [HandleDebugEvent_unregistered d h ev c1 c2 hreg2]

/-- Witness of C12: with process 1 and thread 1 tracked, the process-created
event of the new process 2 with initial thread 1 throws and leaves process 2
registered. -/
theorem HandleDebugEvent_failure_atomic_witness :
    returnedNormally
      (HandleDebugEvent oneProcess (constHandler .BreakPoint) (createProcess 2 1)) = false ∧
    (HandleDebugEvent oneProcess (constHandler .BreakPoint) (createProcess 2 1)).2 =
      { oneProcess with processHandles_ := [(2, 102), (1, 101)] } :=
  ⟨by decide,
   (HandleDebugEvent_failure_atomic oneProcess (constHandler .BreakPoint) (createProcess 2 1)
      (by decide)).2.1⟩

end CppCoverage
